import Mathlib

/-!
Shallow embedding of `src/opnsensewireguard.py` (an OPNsense WireGuard peer
provisioning script) together with theorems checking the claims of the
natural-language specification against it.

Conventions of the embedding:
* Python strings are modelled as `List Char` (`PyStr`); Python `None` for an
  optional string is `Option PyStr`.
* IPv4 addresses are naturals below `2^32`; the script's use of the stdlib
  `ipaddress` module (IPv4 paths, as exercised by the configuration documents
  the script targets) is embedded by executable parsers that follow the
  library's documented behaviour, including its acceptance of netmask and
  hostmask suffixes and its RFC-3021 treatment of `/31` and `/32` in `hosts()`.
* The stdlib `xml.etree.ElementTree` document model is embedded as a tree of
  nodes carrying tag, attributes, optional text, children and optional tail
  (`XNode`), with the library's serializer (`ElementTree.write`, default
  us-ascii encoding, short empty elements) and a parser for the XML subset the
  configuration documents use (elements, attributes, character data with the
  standard entities and decimal character references; no comments, processing
  instructions or XML declaration).
* Fallible operations return `Option`/`Except`; an uncaught Python exception
  is a distinguished error constructor.  All definitions are executable and
  evaluate by kernel reduction.
-/

namespace OpnWG

/-- Python strings, modelled as lists of characters. -/
abbrev PyStr := List Char

/-- ASCII decimal digit test (Python `str.isdigit` restricted to ASCII, which
is all the script's inputs use). -/
def isDigitChar (c : Char) : Bool := '0' ≤ c && c ≤ '9'

/-- Value of a digit character. -/
def digitVal (c : Char) : Nat := c.toNat - '0'.toNat

/-- Python `int(s)` on a string of decimal digits. -/
def digitsToNat (s : PyStr) : Nat := s.foldl (fun n c => n * 10 + digitVal c) 0

/-- Decimal digit character for a value below 10. -/
def digitChar (n : Nat) : Char := Char.ofNat ('0'.toNat + n)

/-- Auxiliary for `natToDigits`, with fuel for structural recursion. -/
def natToDigitsAux : Nat → Nat → PyStr
  | 0, _ => []
  | fuel + 1, n =>
    if n < 10 then [digitChar n]
    else natToDigitsAux fuel (n / 10) ++ [digitChar (n % 10)]

/-- Python `str(n)` for a natural number. -/
def natToDigits (n : Nat) : PyStr := natToDigitsAux (n + 1) n

/-- Auxiliary for `pyCount`, with fuel for structural recursion. -/
def pyCountAux : Nat → PyStr → PyStr → Nat
  | 0, _, _ => 0
  | fuel + 1, s, pat =>
    if pat.isEmpty then s.length + 1
    else if pat.isPrefixOf s then 1 + pyCountAux fuel (s.drop pat.length) pat
    else
      match s with
      | [] => 0
      | _ :: rest => pyCountAux fuel rest pat

/-- Python `s.count(pat)`: number of non-overlapping occurrences, scanning
from the left. -/
def pyCount (s pat : PyStr) : Nat := pyCountAux (s.length + 1) s pat

/-- Auxiliary for `pyReplace`, with fuel for structural recursion. -/
def pyReplaceAux : Nat → PyStr → PyStr → PyStr → PyStr
  | 0, s, _, _ => s
  | fuel + 1, s, pat, rep =>
    if pat.isEmpty then
      match s with
      | [] => rep
      | c :: rest => rep ++ c :: pyReplaceAux fuel rest pat rep
    else if pat.isPrefixOf s then rep ++ pyReplaceAux fuel (s.drop pat.length) pat rep
    else
      match s with
      | [] => []
      | c :: rest => c :: pyReplaceAux fuel rest pat rep

/-- Python `s.replace(pat, rep)`: replace every non-overlapping occurrence,
scanning from the left. -/
def pyReplace (s pat rep : PyStr) : PyStr := pyReplaceAux (s.length + 1) s pat rep

/-- Python `sep.join(parts)` for list-of-string parts. -/
def pyJoin (sep : PyStr) (parts : List PyStr) : PyStr := List.intercalate sep parts

/-- Python `s.split(sep)` for a one-character separator. -/
def pySplitChar (sep : Char) (s : PyStr) : List PyStr := s.splitOn sep

/-- Python `s * n` style repetition of a string. -/
def pyRepeat (s : PyStr) (n : Nat) : PyStr := (List.replicate n s).flatten

/-! ## The `ipaddress` module, IPv4 fragment used by the script -/

/-- One dotted-quad octet, as accepted by `ipaddress` (`_parse_octet`):
nonempty, ASCII digits only, at most three characters, no leading zero,
value at most 255. -/
def parseOctet (s : PyStr) : Option Nat :=
  if s.isEmpty then none
  else if ¬ s.all isDigitChar then none
  else if 3 < s.length then none
  else if s.length > 1 && s.headI = '0' then none
  else
    let n := digitsToNat s
    if n ≤ 255 then some n else none

/-- A dotted-quad IPv4 address string to its numeric value
(`_ip_int_from_string`): exactly four octets separated by dots. -/
def parseIPv4 (s : PyStr) : Option Nat :=
  match pySplitChar '.' s with
  | [a, b, c, d] => do
    let a ← parseOctet a
    let b ← parseOctet b
    let c ← parseOctet c
    let d ← parseOctet d
    pure (a * 2 ^ 24 + b * 2 ^ 16 + c * 2 ^ 8 + d)
  | _ => none

/-- `ipaddress.ip_address(s)` on the IPv4 strings the script handles; `none`
models the `ValueError` raised on anything unparseable. -/
def ipAddressV4 (s : PyStr) : Option Nat := parseIPv4 s

/-- Decimal prefix-length suffix (`_prefix_from_prefix_string`): digits only,
value at most 32. -/
def parsePrefixLen (s : PyStr) : Option Nat :=
  if ¬ s.isEmpty && s.all isDigitChar then
    let n := digitsToNat s
    if n ≤ 32 then some n else none
  else none

/-- A netmask integer that consists of `p` leading one bits maps to `p`
(`_prefix_from_ip_int`). -/
def netmaskToPrefixLen (v : Nat) : Option Nat :=
  (List.range 33).find? (fun p => v = 2 ^ 32 - 2 ^ (32 - p))

/-- A hostmask integer that consists of trailing one bits maps to the
corresponding prefix length. -/
def hostmaskToPrefixLen (v : Nat) : Option Nat :=
  (List.range 33).find? (fun p => v = 2 ^ (32 - p) - 1)

/-- The `/suffix` part of a network string (`_make_netmask`): a decimal prefix
length, else a dotted netmask, else a dotted hostmask. -/
def parseMaskSuffix (s : PyStr) : Option Nat :=
  match parsePrefixLen s with
  | some p => some p
  | none =>
    match parseIPv4 s with
    | some v =>
      match netmaskToPrefixLen v with
      | some p => some p
      | none => hostmaskToPrefixLen v
    | none => none

/-- `ipaddress.ip_network(s, strict)` on IPv4 input: returns
`(network address, prefix length)`; `none` models `ValueError`.  A bare
address gets prefix length 32; with `strict` set, host bits must be clear. -/
def ipNetworkV4 (s : PyStr) (strict : Bool) : Option (Nat × Nat) :=
  match pySplitChar '/' s with
  | [addr] => (parseIPv4 addr).map (fun a => (a, 32))
  | [addr, sfx] => do
    let a ← parseIPv4 addr
    let p ← parseMaskSuffix sfx
    let block := 2 ^ (32 - p)
    let net := a - a % block
    if strict && net ≠ a then none else pure (net, p)
  | _ => none

/-- `list(net.hosts())` for an IPv4 network: all addresses strictly between
network and broadcast for prefixes up to `/30`; per RFC 3021 the library
returns every address of the block for `/31` and `/32`. -/
def hostsList (net p : Nat) : List Nat :=
  if 31 ≤ p then (List.range (2 ^ (32 - p))).map (fun i => net + i)
  else (List.range (2 ^ (32 - p) - 2)).map (fun i => net + 1 + i)

/-- `str(IPv4Address(a))`: dotted-quad rendering. -/
def ipToDotted (a : Nat) : PyStr :=
  natToDigits (a / 2 ^ 24 % 256) ++ '.' ::
  natToDigits (a / 2 ^ 16 % 256) ++ '.' ::
  natToDigits (a / 2 ^ 8 % 256) ++ '.' ::
  natToDigits (a % 256)

/-! ## The `xml.etree.ElementTree` document model -/

/-- An ElementTree element: tag, attributes in insertion order, optional text
(character data before the first child), ordered children, optional tail
(character data following this element's closing tag). -/
inductive XNode where
  | mk (tag : PyStr) (attrib : List (PyStr × PyStr)) (text : Option PyStr)
       (children : List XNode) (tail : Option PyStr)

/-- Tag accessor. -/
def XNode.tag : XNode → PyStr
  | .mk t _ _ _ _ => t

/-- Attribute-list accessor. -/
def XNode.attrib : XNode → List (PyStr × PyStr)
  | .mk _ a _ _ _ => a

/-- Text accessor. -/
def XNode.text : XNode → Option PyStr
  | .mk _ _ tx _ _ => tx

/-- Children accessor. -/
def XNode.children : XNode → List XNode
  | .mk _ _ _ cs _ => cs

/-- Tail accessor. -/
def XNode.tail : XNode → Option PyStr
  | .mk _ _ _ _ tl => tl

/-- Replace the tail of an element. -/
def XNode.setTail : XNode → Option PyStr → XNode
  | .mk t a tx cs _, tl => .mk t a tx cs tl

/-- Replace the text of an element. -/
def XNode.setText : XNode → Option PyStr → XNode
  | .mk t a _ cs tl, tx => .mk t a tx cs tl

/-- Replace the children of an element. -/
def XNode.setChildren : XNode → List XNode → XNode
  | .mk t a tx _ tl, cs => .mk t a tx cs tl

mutual

/-- Decidable structural equality on elements (written out because
`deriving DecidableEq` is unavailable for this nested inductive). -/
def xdec : (a b : XNode) → Decidable (a = b)
  | .mk t al tx cs tl, .mk t2 al2 tx2 cs2 tl2 =>
    if h1 : t = t2 then
      if h2 : al = al2 then
        if h3 : tx = tx2 then
          if h5 : tl = tl2 then
            match xdecList cs cs2 with
            | isTrue h4 => isTrue (by rw [h1, h2, h3, h4, h5])
            | isFalse h4 => isFalse (fun he => h4 (by cases he; rfl))
          else isFalse (fun he => h5 (by cases he; rfl))
        else isFalse (fun he => h3 (by cases he; rfl))
      else isFalse (fun he => h2 (by cases he; rfl))
    else isFalse (fun he => h1 (by cases he; rfl))
termination_by structural a => a

/-- Decidable structural equality on lists of elements. -/
def xdecList : (as bs : List XNode) → Decidable (as = bs)
  | [], [] => isTrue rfl
  | _ :: _, [] => isFalse (by simp)
  | [], _ :: _ => isFalse (by simp)
  | c :: cs, d :: ds =>
    match xdec c d, xdecList cs ds with
    | isTrue h1, isTrue h2 => isTrue (by rw [h1, h2])
    | isFalse h1, _ => isFalse (fun he => h1 (by cases he; rfl))
    | _, isFalse h2 => isFalse (fun he => h2 (by cases he; rfl))
termination_by structural as => as

end

instance : DecidableEq XNode := xdec

/-- `element.find(name)` together with the index of the match: the first
child whose tag is `name`. -/
def findChildIdx (n : XNode) (name : PyStr) : Option (Nat × XNode) :=
  let rec go : Nat → List XNode → Option (Nat × XNode)
    | _, [] => none
    | i, c :: cs => if c.tag = name then some (i, c) else go (i + 1) cs
  go 0 n.children

/-- `element.find(name)` without the index. -/
def findChild (n : XNode) (name : PyStr) : Option XNode :=
  (findChildIdx n name).map (·.2)

/-- `element.findtext(name)`: text of the first child tagged `name`; an
element found with no text yields the empty string, no element yields
`none` (Python `None`). -/
def findtext (n : XNode) (name : PyStr) : Option PyStr :=
  (findChild n name).map (fun c => c.text.getD [])

/-- `element.get(key)`: attribute lookup. -/
def attrGet (n : XNode) (key : PyStr) : Option PyStr :=
  (n.attrib.find? (fun kv => kv.1 = key)).map (·.2)

/-! ## `parse_server_details` -/

/-- The `server_conf` dictionary built by `parse_server_details`. -/
structure ServerConf where
  peers : List PyStr
  pubkey : PyStr
  tunneladdress : PyStr
  netmask : Nat
  port : PyStr
  deriving DecidableEq, Repr

/-- The `client_conf` dictionary as first populated by
`parse_server_details` (the free-address pool). -/
structure ClientConf where
  net_range : List Nat
  deriving DecidableEq, Repr

/-- Outcome of `parse_server_details`: success, the aggregated
could-not-parse-fields exit, or the uncaught `NameError` the function hits
at `net.hosts()` when `ip_network` failed (local `net` is then unbound). -/
inductive PSDResult where
  | ok (sc : ServerConf) (cc : ClientConf)
  | fieldsExit (errs : List PyStr)
  | nameError
  deriving DecidableEq, Repr

/-- The peers-field parse inside `parse_server_details`: `None` or empty
gives an empty list, a comma-free string a singleton, otherwise a split on
commas. -/
def parsePeersField (peers : Option PyStr) : List PyStr :=
  match peers with
  | none => []
  | some s =>
    if s.isEmpty then []
    else if pyCount s [','] = 0 then [s]
    else pySplitChar ',' s

/-- `parse_server_details(server)` (lines 387-449): reads `pubkey`,
`tunneladdress`, `port`, `peers` from the server element, aggregating
missing-field messages; parses the tunnel network, lists its hosts,
strips the `/prefixlen` suffix and removes the server's own address from the
pool, where a `ValueError` (address unparseable, or absent from the pool) is
silently passed over.  When `ip_network` itself fails, the subsequent
`net.hosts()` raises an uncaught `NameError` before the aggregated report. -/
def parse_server_details (server : XNode) : PSDResult :=
  let errs0 : List PyStr := []
  let pubkey := findtext server "pubkey".data
  let errs1 := errs0 ++ (if pubkey = none then ["public key (pubkey)".data] else [])
  let ta := findtext server "tunneladdress".data
  let errs2 := errs1 ++ (if ta = none then ["tunneladdress".data] else [])
  let net? := match ta with
    | none => none
    | some t => ipNetworkV4 t false
  let errs3 := errs2 ++ (if net? = none then ["available ip range".data] else [])
  match net? with
  | none => .nameError
  | some (net, p) =>
    let net_range := hostsList net p
    let ta1 := (ta.getD []) -- present here: `ip_network(None)` would have failed above
    let ta2 := pyReplace ta1 ('/' :: natToDigits p) []
    let net_range1 := match ipAddressV4 ta2 with
      | some a => net_range.erase a
      | none => net_range
    let port := findtext server "port".data
    let errs4 := errs3 ++ (if port = none then ["port".data] else [])
    let peersL := parsePeersField (findtext server "peers".data)
    if ¬ errs4.isEmpty then .fieldsExit errs4
    else
      .ok { peers := peersL, pubkey := pubkey.getD [], tunneladdress := ta2,
            netmask := p, port := port.getD [] }
         { net_range := net_range1 }

/-- The updated peers field written back to the server record (lines
232-235): append the new client uuid and comma-join. -/
def updatedPeersField (peers : List PyStr) (uuid : PyStr) : PyStr :=
  pyJoin [','] (peers ++ [uuid])

/-! ## The excluded-address loop and allocation (main, lines 131-147) -/

/-- The loop over `./OPNsense/wireguard/client/clients/` (lines 132-141):
every client whose `uuid` attribute appears in the server's peers list has
its `tunneladdress` parsed strictly and its network address removed from the
pool; any exception there (unparseable address, or address absent from the
pool) prints `Failed...` and exits.  `none` models that exit. -/
def clientLoop : List XNode → List PyStr → List Nat → Option (List Nat)
  | [], _, pool => some pool
  | c :: rest, peers, pool =>
    let isPeer := match attrGet c "uuid".data with
      | some u => decide (u ∈ peers)
      | none => false
    if isPeer then
      match findtext c "tunneladdress".data with
      | none => none
      | some t =>
        match ipNetworkV4 t true with
        | none => none
        | some (net, _) =>
          if net ∈ pool then clientLoop rest peers (pool.erase net) else none
    else clientLoop rest peers pool

/-- Outcome of the allocation core. -/
inductive AllocResult where
  | ok (a : Nat)
  | noAddress
  | peerFailed
  deriving DecidableEq, Repr

/-- Sequential `pool.remove(a)` for each listed address, where a missing
address raises (`none`), mirroring the loop of lines 133-141 at the level of
already-parsed addresses. -/
def removeEach : List Nat → List Nat → Option (List Nat)
  | [], pool => some pool
  | a :: rest, pool => if a ∈ pool then removeEach rest (pool.erase a) else none

/-- The allocation core of lines 404-418 and 132-146, abstracted over the
already-parsed inputs: pool := hosts of the block; remove the server's own
address tolerantly (`ValueError` passed); remove each listed peer address,
any failure exiting (`peerFailed`); the result is the first pool element,
an empty pool raising `IndexError` (`noAddress`). -/
def allocateFrom (net p sa : Nat) (peerAddrs : List Nat) : AllocResult :=
  let pool0 := hostsList net p
  let pool1 := pool0.erase sa
  match removeEach peerAddrs pool1 with
  | none => .peerFailed
  | some pool2 =>
    match pool2.head? with
    | some a => .ok a
    | none => .noAddress

/-- The set the specification calls `hosts(B) \ E` with
`E = {server} ∪ peers`, as an ordered list. -/
def hostsMinusE (net p sa : Nat) (peerAddrs : List Nat) : List Nat :=
  (hostsList net p).filter (fun a => (a != sa) && !(peerAddrs.contains a))

/-- The allocation pipeline of main lines 127-147 on one server element and
the client elements: parse the server, run the exclusion loop, take the head
of the pool and render it. -/
def allocationOf (server : XNode) (clients : List XNode) : Option PyStr :=
  match parse_server_details server with
  | .ok sc cc =>
    match clientLoop clients sc.peers cc.net_range with
    | some pool =>
      match pool.head? with
      | some a => some (ipToDotted a)
      | none => none
    | none => none
  | _ => none

/-! ## ElementTree serialization (`ElementTree.write`, method=xml, default
us-ascii encoding, short_empty_elements=True) -/

/-- `_escape_cdata`: escaping applied to text and tails. -/
def escapeCdata : PyStr → PyStr
  | [] => []
  | c :: t =>
    (if c = '&' then "&amp;".data
     else if c = '<' then "&lt;".data
     else if c = '>' then "&gt;".data
     else [c]) ++ escapeCdata t

/-- `_escape_attrib`: escaping applied to attribute values. -/
def escapeAttrib : PyStr → PyStr
  | [] => []
  | c :: t =>
    (if c = '&' then "&amp;".data
     else if c = '<' then "&lt;".data
     else if c = '>' then "&gt;".data
     else if c = '"' then "&quot;".data
     else if c = '\r' then "&#13;".data
     else if c = '\n' then "&#10;".data
     else if c = '\t' then "&#09;".data
     else [c]) ++ escapeAttrib t

/-- Serialized attribute list: one space, name, `="`, escaped value, `"`,
per attribute in insertion order. -/
def serializeAttrs : List (PyStr × PyStr) → PyStr
  | [] => []
  | kv :: rest =>
    ' ' :: kv.1 ++ '=' :: '"' :: escapeAttrib kv.2 ++ '"' :: serializeAttrs rest

mutual

/-- `_serialize_xml` on one element, without its tail: a self-closing form
`<tag />` when the text is missing or empty and there are no children, else
the full form with escaped text, serialized children and matching close
tag. -/
def serializeElem : XNode → PyStr
  | .mk t a tx cs tl =>
    let _ := tl
    '<' :: t ++ serializeAttrs a ++
      (if (tx.getD []).isEmpty && cs.isEmpty then ' ' :: '/' :: '>' :: []
       else '>' :: escapeCdata (tx.getD []) ++ serializeKids cs ++
            '<' :: '/' :: t ++ ['>'])
termination_by structural n => n

/-- Children serialization: each child's element form followed by its escaped
tail. -/
def serializeKids : List XNode → PyStr
  | [] => []
  | c :: cs => serializeElem c ++ escapeCdata (c.tail.getD []) ++ serializeKids cs
termination_by structural cs => cs

end

/-- A whole tree as written by `ElementTree.write` (no XML declaration with
the default us-ascii encoding): the root element followed by its escaped
tail. -/
def serializeNode (n : XNode) : PyStr :=
  serializeElem n ++ escapeCdata (n.tail.getD [])

/-! ## XML parsing (`ET.fromstring`) on the subset the configuration
documents use: elements, attributes, character data with the five standard
entities and decimal character references.  Comments, processing
instructions, doctypes and XML declarations are outside the subset (the
parser rejects them where ElementTree would accept and discard them). -/

/-- Characters allowed in element and attribute names by this subset. -/
def isNameChar (c : Char) : Bool :=
  c.isAlphanum || c = '_' || c = '-' || c = '.' || c = ':'

/-- XML whitespace. -/
def isXmlWs (c : Char) : Bool :=
  c = ' ' || c = '\n' || c = '\t' || c = '\r'

/-- Decode one entity or decimal character reference right after a `&`. -/
def parseEntity (s : PyStr) : Option (Char × PyStr) :=
  match s with
  | 'a' :: 'm' :: 'p' :: ';' :: r => some ('&', r)
  | 'l' :: 't' :: ';' :: r => some ('<', r)
  | 'g' :: 't' :: ';' :: r => some ('>', r)
  | 'q' :: 'u' :: 'o' :: 't' :: ';' :: r => some ('"', r)
  | 'a' :: 'p' :: 'o' :: 's' :: ';' :: r => some (Char.ofNat 39, r)
  | '#' :: r =>
    let ds := r.takeWhile isDigitChar
    if ds.isEmpty then none
    else
      match r.dropWhile isDigitChar with
      | ';' :: r2 =>
        let v := digitsToNat ds
        if v < 55296 then some (Char.ofNat v, r2) else none
      | _ => none
  | _ => none

/-- Character data up to the next `<`; a raw `&` must begin an entity; the
input must not run out (character data in a document is always followed by
markup). -/
def parseTextChunk : Nat → PyStr → Option (PyStr × PyStr)
  | 0, _ => none
  | _, [] => none
  | fuel + 1, c :: rest =>
    if c = '<' then some ([], c :: rest)
    else if c = '&' then
      match parseEntity rest with
      | some (ch, r2) => (parseTextChunk fuel r2).map (fun tr => (ch :: tr.1, tr.2))
      | none => none
    else (parseTextChunk fuel rest).map (fun tr => (c :: tr.1, tr.2))

/-- Attribute value up to the closing quote `q`. -/
def parseAttrValue : Nat → Char → PyStr → Option (PyStr × PyStr)
  | 0, _, _ => none
  | _, _, [] => none
  | fuel + 1, q, c :: rest =>
    if c = q then some ([], rest)
    else if c = '<' then none
    else if c = '&' then
      match parseEntity rest with
      | some (ch, r2) => (parseAttrValue fuel q r2).map (fun tr => (ch :: tr.1, tr.2))
      | none => none
    else (parseAttrValue fuel q rest).map (fun tr => (c :: tr.1, tr.2))

/-- The attribute region after a tag name, up to and including the `>` or
`/>`: returns the attributes and whether the element was self-closing. -/
def parseAttrs : Nat → PyStr → Option (List (PyStr × PyStr) × Bool × PyStr)
  | 0, _ => none
  | fuel + 1, cs =>
    match cs.dropWhile isXmlWs with
    | '>' :: r => some ([], false, r)
    | '/' :: '>' :: r => some ([], true, r)
    | c :: r =>
      if isNameChar c then
        let nm := (c :: r).takeWhile isNameChar
        match ((c :: r).dropWhile isNameChar).dropWhile isXmlWs with
        | '=' :: r2 =>
          match r2.dropWhile isXmlWs with
          | q :: r3 =>
            if q = '"' || q = Char.ofNat 39 then
              match parseAttrValue (r3.length + 1) q r3 with
              | some (v, r4) =>
                (parseAttrs fuel r4).map (fun ar => ((nm, v) :: ar.1, ar.2))
              | none => none
            else none
          | [] => none
        | _ => none
      else none
    | [] => none

mutual

/-- Parse one element starting at `<`; its tail is attached by the caller. -/
def parseElem : Nat → PyStr → Option (XNode × PyStr)
  | 0, _ => none
  | fuel + 1, cs =>
    match cs with
    | '<' :: r =>
      let nm := r.takeWhile isNameChar
      if nm.isEmpty then none
      else
        match parseAttrs (r.length + 1) (r.dropWhile isNameChar) with
        | some (attrs, true, r2) => some (.mk nm attrs none [] none, r2)
        | some (attrs, false, r2) =>
          match parseContent fuel nm r2 with
          | some (tx, kids, r3) => some (.mk nm attrs tx kids none, r3)
          | none => none
        | none => none
    | _ => none
termination_by structural fuel => fuel

/-- Parse element content: a text chunk, then either the matching close tag
(returning the chunk as text) or a child element whose tail is the first
chunk of the remaining content. -/
def parseContent : Nat → PyStr → PyStr → Option (Option PyStr × List XNode × PyStr)
  | 0, _, _ => none
  | fuel + 1, nm, cs =>
    match parseTextChunk (cs.length + 1) cs with
    | none => none
    | some (t, r) =>
      let tOpt : Option PyStr := if t.isEmpty then none else some t
      if ('<' :: '/' :: []).isPrefixOf r then
        let r2 := r.drop 2
        let cn := r2.takeWhile isNameChar
        if cn = nm then
          match (r2.dropWhile isNameChar).dropWhile isXmlWs with
          | '>' :: r3 => some (tOpt, [], r3)
          | _ => none
        else none
      else
        match parseElem fuel r with
        | some (child, r2) =>
          match parseContent fuel nm r2 with
          | some (ctail, kids, r3) => some (tOpt, child.setTail ctail :: kids, r3)
          | none => none
        | none => none
termination_by structural fuel => fuel

end

/-- `ET.fromstring(bytes)` on the subset: optional leading whitespace, one
element, optional trailing whitespace (which ElementTree discards — the root
keeps no tail). -/
def parseDoc (bs : PyStr) : Option XNode :=
  match parseElem (bs.length + 1) (bs.dropWhile isXmlWs) with
  | some (n, rest) => if rest.all isXmlWs then some n else none
  | none => none

/-! ## Tree surgery: paths, `add_formatted_subelement`, the in-memory
mutation of the run -/

/-- The subtree of `n` at a child-index path. -/
def subtreeAt : XNode → List Nat → Option XNode
  | n, [] => some n
  | n, i :: p =>
    match n.children[i]? with
    | some c => subtreeAt c p
    | none => none

/-- Rewrite the subtree at a child-index path with a fallible function. -/
def updateAtPath : XNode → List Nat → (XNode → Option XNode) → Option XNode
  | n, [], f => f n
  | n, i :: p, f =>
    match n.children[i]? with
    | some c => (updateAtPath c p f).map (fun c2 => n.setChildren (n.children.set i c2))
    | none => none

/-- Resolve a chain of tag names from `root` by first match at each level,
returning the index path and the node (the unique-match shape of the
configuration documents the script's `findall` queries address). -/
def resolvePath : XNode → List PyStr → Option (List Nat × XNode)
  | root, [] => some ([], root)
  | root, nm :: rest =>
    match findChildIdx root nm with
    | some (i, c) => (resolvePath c rest).map (fun pr => (i :: pr.1, pr.2))
    | none => none

/-- Set the tail of the last element of a list, if any (`lst[-1].tail = t`). -/
def setLastTail (cs : List XNode) (tl : Option PyStr) : List XNode :=
  match cs.getLast? with
  | none => cs
  | some lastC => cs.dropLast ++ [lastC.setTail tl]

/-- `add_formatted_subelement(root, name, attrib, children, indent)`
(lines 331-378): derive the indent (the `auto` heuristic samples the last
child's text against its tail, or halves the root's own text-to-tail
margin), append a new element with the given attribute and text children,
then rewrite the text/tail formatting of the new element, its children, and
every sibling under `root`.  `none` models the uncaught exceptions on
missing text/tail values (`AttributeError`/`TypeError` on `None`). -/
def add_formatted_subelement (root : XNode) (name : PyStr)
    (attrib : List (PyStr × PyStr)) (childSpecs : List (PyStr × Option PyStr))
    (indent : PyStr) : Option XNode :=
  let root_tail := root.tail
  let root_text := root.text
  let indentO : Option PyStr :=
    if indent = "auto".data then
      match root.children.getLast? with
      | some lastC =>
        match lastC.text, lastC.tail with
        | some t, some tl => some (pyReplace t tl [])
        | _, _ => none
      | none =>
        match root_text, root_tail with
        | some t, some tl =>
          let m := pyReplace t tl []
          some (m.take (m.length / 2))
        | _, _ => none
    else some indent
  match indentO, root_tail with
  | some ind, some rt =>
    let level := pyCount rt ind + 1
    let element_level := level + 1
    let child_level := level + 2
    let childNodes := childSpecs.map (fun kv => XNode.mk kv.1 [] kv.2 [] none)
    let elemText : Option PyStr :=
      if childNodes.isEmpty then none else some ('\n' :: pyRepeat ind child_level)
    let childNodes2 :=
      if childNodes.isEmpty then childNodes
      else setLastTail
        (childNodes.map (fun c => c.setTail (some ('\n' :: pyRepeat ind child_level))))
        (some ('\n' :: pyRepeat ind element_level))
    let element := XNode.mk name attrib elemText childNodes2 none
    let newKids :=
      (root.children ++ [element]).map
        (fun c => c.setTail (some ('\n' :: pyRepeat ind element_level)))
    some (root.setChildren (setLastTail newKids (some ('\n' :: pyRepeat ind level))))
  | _, _ => none

/-! ## The provisioning run (main) -/

/-- The ways the run can end before touching the disk, each matching an
`exit(...)` call or an uncaught exception in main (lines 90-236). -/
inductive RunAbort where
  | noServers
  | serverListingCrash
  | userQuit
  | intParseCrash
  | selectCrash
  | psdFields (errs : List PyStr)
  | psdNameError
  | clientLoopFailed
  | noAddressCrash
  | clientsNodeCrash
  | afseCrash
  | peersFindCrash
  | pathError
  deriving DecidableEq, Repr

/-- Decidable equality of fallible results (not provided by the core
library). -/
instance {ε α : Type} [DecidableEq ε] [DecidableEq α] :
    DecidableEq (Except ε α) := fun a b =>
  match a, b with
  | .error e, .error e2 =>
    if h : e = e2 then isTrue (by rw [h])
    else isFalse (fun he => h (by cases he; rfl))
  | .ok x, .ok y =>
    if h : x = y then isTrue (by rw [h])
    else isFalse (fun he => h (by cases he; rfl))
  | .error _, .ok _ => isFalse (by simp)
  | .ok _, .error _ => isFalse (by simp)

/-- Python `int(s)` on the strings that pass the case-insensitivity test of
line 114 (sign and digits; no surrounding whitespace in the subset). -/
def pyIntParse (s : PyStr) : Option Int :=
  match s with
  | '-' :: rest =>
    if ¬ rest.isEmpty && rest.all isDigitChar then some (-(digitsToNat rest : Int))
    else none
  | '+' :: rest =>
    if ¬ rest.isEmpty && rest.all isDigitChar then some ((digitsToNat rest : Int))
    else none
  | _ =>
    if ¬ s.isEmpty && s.all isDigitChar then some ((digitsToNat s : Int)) else none

/-- The ElementTree predicate `[instance='X']`: the element has a child
tagged `instance` whose text content equals `X`. -/
def instanceMatches (c : XNode) (x : PyStr) : Bool :=
  c.children.any (fun k => k.tag = "instance".data && k.text.getD [] = x)

/-- `root.findall("./OPNsense/wireguard/server/servers/")`: the server
elements. -/
def serversOf (root : XNode) : Option (List Nat × List XNode) :=
  (resolvePath root ["OPNsense".data, "wireguard".data, "server".data,
    "servers".data]).map (fun pr => (pr.1, pr.2.children))

/-- The selected server (line 119): first child of the servers container
satisfying `[instance='X']`, with its index. -/
def selectServer (servers : List XNode) (x : PyStr) : Option (Nat × XNode) :=
  let rec go : Nat → List XNode → Option (Nat × XNode)
    | _, [] => none
    | i, c :: cs => if instanceMatches c x then some (i, c) else go (i + 1) cs
  go 0 servers

/-- `root.findall("./OPNsense/wireguard/client/clients/")` (line 133): the
client elements, or no elements at all when the path does not resolve (the
loop then simply runs zero times). -/
def clientsOf (root : XNode) : List XNode :=
  match resolvePath root ["OPNsense".data, "wireguard".data, "client".data,
    "clients".data] with
  | some pr => pr.2.children
  | none => []

/-- Everything the in-memory phase of a run produces. -/
structure PhaseAOut where
  newRoot : XNode
  clientsPath : List Nat
  peersPath : List Nat
  safeIp : PyStr
  updatedPeers : PyStr
  serverConf : ServerConf
  deriving DecidableEq

/-- Lines 90-119: find the server elements (exit when none), crash if one
lacks `name`/`instance` children (the listing loop dereferences both),
validate the instance answer (quit on empty or cased letters, crash if
`int()` cannot parse it, quit when above the server count) and select the
server by `[instance='X']` (crash via `[0]` on no match).  Returns the
servers-container path, the index of the selected server and the server. -/
def selectionPhase (root : XNode) (this_instance : PyStr) :
    Except RunAbort (List Nat × Nat × XNode) :=
  match serversOf root with
  | none => .error .noServers
  | some (serversPath, servers) =>
    if servers.isEmpty then .error .noServers
    else if servers.any (fun s =>
        (findChild s "name".data).isNone || (findChild s "instance".data).isNone) then
      .error .serverListingCrash
    else if this_instance.isEmpty
        || this_instance.any (fun c => c.toLower ≠ c.toUpper) then
      .error .userQuit
    else
      match pyIntParse this_instance with
      | none => .error .intParseCrash
      | some v =>
        if v > (servers.length : Int) then .error .userQuit
        else
          match selectServer servers this_instance with
          | none => .error .selectCrash
          | some (serverIdx, server) => .ok (serversPath, serverIdx, server)

/-- The fixed field order of the new client element (lines 220-229), given
the client name, key material, tunnel address and server port. -/
def newClientSpecs (cname cpub cpsk newTunnel port : PyStr) :
    List (PyStr × Option PyStr) :=
  [("enabled".data, some "0".data),
   ("name".data, some cname),
   ("pubkey".data, some cpub),
   ("psk".data, some cpsk),
   ("tunneladdress".data, some newTunnel),
   ("serveraddress".data, none),
   ("serverport".data, some port),
   ("keepalive".data, some "25".data)]

/-- The run's two-site document mutation (lines 215-235): insert the new
client element under the clients container with a two-space indent, then
overwrite the text of the server's `peers` child. -/
def mutateDoc (root : XNode) (clientsPath peersPath : List Nat) (uuid : PyStr)
    (specs : List (PyStr × Option PyStr)) (updated : PyStr) : Option XNode :=
  (updateAtPath root clientsPath (fun n =>
      add_formatted_subelement n "client".data [("uuid".data, uuid)] specs
        (' ' :: ' ' :: []))).bind
    (fun r1 => updateAtPath r1 peersPath (fun n => some (n.setText (some updated))))

/-- The in-memory phase of main (lines 90-236), with the interactive
choices, generated uuid and external key material passed in as opaque
strings: select the server, run `parse_server_details`, build the exclusion
pool over the listed clients, take the first free address, and mutate the
document at the clients container and the server's `peers` child. -/
def mainPhaseA (root : XNode) (this_instance uuid cname cpub cpsk : PyStr) :
    Except RunAbort PhaseAOut :=
  match selectionPhase root this_instance with
  | .error e => .error e
  | .ok (serversPath, serverIdx, server) =>
    match parse_server_details server with
    | .fieldsExit errs => .error (.psdFields errs)
    | .nameError => .error .psdNameError
    | .ok sc cc =>
      match clientLoop (clientsOf root) sc.peers cc.net_range with
      | none => .error .clientLoopFailed
      | some pool =>
        match pool.head? with
        | none => .error .noAddressCrash
        | some a =>
          let safeIp := ipToDotted a
          let newTunnel := safeIp ++ '/' :: '3' :: '2' :: []
          match resolvePath root
              ["OPNsense".data, "wireguard".data, "client".data] with
          | none => .error .clientsNodeCrash
          | some (clientPath, clientNode) =>
            if clientNode.children.isEmpty then .error .clientsNodeCrash
            else
              match findChildIdx server "peers".data with
              | none => .error .peersFindCrash
              | some (peersIdx, _) =>
                let clientsPath := clientPath ++ [0]
                let peersPath := serversPath ++ serverIdx :: [peersIdx]
                let updated := updatedPeersField sc.peers uuid
                match mutateDoc root clientsPath peersPath uuid
                    (newClientSpecs cname cpub cpsk newTunnel sc.port) updated with
                | none => .error .afseCrash
                | some root2 =>
                  .ok { newRoot := root2, clientsPath := clientsPath,
                        peersPath := peersPath, safeIp := safeIp,
                        updatedPeers := updated, serverConf := sc }

/-! ## The transactional write (main, lines 204-253) -/

/-- Disk events of the write phase, in occurrence order. -/
inductive Ev where
  | backupEv
  | writeEv
  | restoreEv
  deriving DecidableEq, Repr

/-- The visible end states of a run. -/
inductive RunOutcome where
  | abortedBeforeBackup (e : RunAbort)
  | backupFailed
  | committed
  | writeFailedRecovered
  | unrecoverable
  deriving DecidableEq, Repr

/-- The two files the write phase touches. -/
structure FS where
  config : PyStr
  backup : Option PyStr
  deriving DecidableEq, Repr

/-- Which of the three I/O steps succeed in a given run. -/
structure Oracle where
  backupOk : Bool
  writeOk : Bool
  restoreOk : Bool

/-- Lines 204-253: copy the config to the backup path (failure exits before
anything else is touched); write the new bytes over the config (a failed
write leaves arbitrary partial bytes `junk`); on write failure copy the
backup back, a failed restore being the distinct fatal outcome.  After a
successful restore the script continues (`Done!`).  The backup file is never
deleted. -/
def txnWrite (fs : FS) (newBytes junk : PyStr) (o : Oracle) :
    FS × RunOutcome × List Ev :=
  if ¬ o.backupOk then (fs, .backupFailed, [])
  else
    let fs1 : FS := { config := fs.config, backup := some fs.config }
    if o.writeOk then
      ({ config := newBytes, backup := fs1.backup }, .committed, [.backupEv, .writeEv])
    else if o.restoreOk then
      ({ config := fs1.backup.getD junk, backup := fs1.backup },
        .writeFailedRecovered, [.backupEv, .writeEv, .restoreEv])
    else
      ({ config := junk, backup := fs1.backup }, .unrecoverable,
        [.backupEv, .writeEv, .restoreEv])

/-- A whole run: the in-memory phase, then — only if it succeeded — the
transactional write of the serialized document. -/
def fullRun (root : XNode) (this_instance uuid cname cpub cpsk : PyStr)
    (fs : FS) (junk : PyStr) (o : Oracle) : FS × RunOutcome × List Ev :=
  match mainPhaseA root this_instance uuid cname cpub cpsk with
  | .error e => (fs, .abortedBeforeBackup e, [])
  | .ok out => txnWrite fs (serializeNode out.newRoot) junk o

/-- The backup path derivation of lines 206 and 248:
`path.replace(".xml", ".wgback")`. -/
def backupPathOf (p : PyStr) : PyStr :=
  pyReplace p ".xml".data ".wgback".data

/-- The strict tunnel-address parse applied to one listed client in the
exclusion loop (line 137). -/
def clientTunnelOf (c : XNode) : Option (Nat × Nat) :=
  match findtext c "tunneladdress".data with
  | none => none
  | some t => ipNetworkV4 t true

/-! ## Well-formedness of documents (the serializer's canonical image) -/

/-- A usable tag or attribute name in the subset: nonempty name characters
(ASCII, as the configuration documents use). -/
def wfName (s : PyStr) : Bool := ¬ s.isEmpty && s.all isNameChar

/-- Text or tail content as the parser produces it: absent, or a nonempty
string of ASCII characters with line/tab whitespace only (carriage returns
are normalized away by the XML parser, other control characters are not
well-formed XML). -/
def wfText : Option PyStr → Bool
  | none => true
  | some t => ¬ t.isEmpty && t.all (fun c => c = '\n' || c = '\t' || (32 ≤ c.toNat && c.toNat ≤ 127))

/-- Attribute values: ASCII, with tab/newline/carriage-return representable
through character references. -/
def wfAttrVal (s : PyStr) : Bool :=
  s.all (fun c => c = '\n' || c = '\t' || c = '\r' || (32 ≤ c.toNat && c.toNat ≤ 127))

mutual

/-- Well-formed element: usable names, parser-shaped text and tails, and
well-formed children. -/
def wfNode : XNode → Bool
  | .mk t a tx cs tl =>
    wfName t && a.all (fun kv => wfName kv.1 && wfAttrVal kv.2) &&
    wfText tx && wfText tl && wfKids cs
termination_by structural n => n

/-- Well-formed child list. -/
def wfKids : List XNode → Bool
  | [] => true
  | c :: cs => wfNode c && wfKids cs
termination_by structural cs => cs

end

/-- Well-formed document: a well-formed root with no tail (ElementTree never
gives the root element a tail when parsing). -/
def wfDoc (n : XNode) : Bool := wfNode n && n.tail.isNone

/-! ## Concrete documents and probes used by witnesses and counterexamples -/

/-- A small but complete configuration document in the byte form the script
reads: one server at instance 0 with `10.0.0.1/29` and one listed peer at
`10.0.0.2/32`, plus an unrelated empty element `<x></x>` that no run
touches. -/
def c1bytes : PyStr :=
  ("<o>\n" ++
   "  <x></x>\n" ++
   "  <OPNsense>\n" ++
   "    <wireguard>\n" ++
   "      <client>\n" ++
   "        <clients>\n" ++
   "          <client uuid=\"u\">\n" ++
   "            <tunneladdress>10.0.0.2/32</tunneladdress>\n" ++
   "          </client>\n" ++
   "        </clients>\n" ++
   "      </client>\n" ++
   "      <server>\n" ++
   "        <servers>\n" ++
   "          <server>\n" ++
   "            <instance>0</instance>\n" ++
   "            <name>w</name>\n" ++
   "            <pubkey>K</pubkey>\n" ++
   "            <tunneladdress>10.0.0.1/29</tunneladdress>\n" ++
   "            <port>7</port>\n" ++
   "            <peers>u</peers>\n" ++
   "          </server>\n" ++
   "        </servers>\n" ++
   "      </server>\n" ++
   "    </wireguard>\n" ++
   "  </OPNsense>\n" ++
   "</o>\n").data

/-- The parsed form of `c1bytes`, written out (the link to the byte form is
proved in the counterexample below). -/
def c1root : XNode :=
  .mk "o".data [] (some "\n  ".data)
    [.mk "x".data [] none [] (some "\n  ".data),
     .mk "OPNsense".data [] (some "\n    ".data)
       [.mk "wireguard".data [] (some "\n      ".data)
         [.mk "client".data [] (some "\n        ".data)
           [.mk "clients".data [] (some "\n          ".data)
             [.mk "client".data [("uuid".data, "u".data)] (some "\n            ".data)
               [.mk "tunneladdress".data [] (some "10.0.0.2/32".data) []
                 (some "\n          ".data)]
               (some "\n        ".data)]
             (some "\n      ".data)]
           (some "\n      ".data),
          .mk "server".data [] (some "\n        ".data)
           [.mk "servers".data [] (some "\n          ".data)
             [.mk "server".data [] (some "\n            ".data)
               [.mk "instance".data [] (some "0".data) [] (some "\n            ".data),
                .mk "name".data [] (some "w".data) [] (some "\n            ".data),
                .mk "pubkey".data [] (some "K".data) [] (some "\n            ".data),
                .mk "tunneladdress".data [] (some "10.0.0.1/29".data) []
                  (some "\n            ".data),
                .mk "port".data [] (some "7".data) [] (some "\n            ".data),
                .mk "peers".data [] (some "u".data) [] (some "\n          ".data)]
               (some "\n        ".data)]
             (some "\n      ".data)]
           (some "\n    ".data)]
         (some "\n  ".data)]
       (some "\n".data)]
    none

/-- The document after the concrete run (instance 0, new uuid `N`, name `c`,
key material `P`/`S`): the new client element inserted last under the
clients container with re-levelled sibling tails, and the server's peers
field now `u,N`; everything else as in `c1root`. -/
def c1newRoot : XNode :=
  .mk "o".data [] (some "\n  ".data)
    [.mk "x".data [] none [] (some "\n  ".data),
     .mk "OPNsense".data [] (some "\n    ".data)
       [.mk "wireguard".data [] (some "\n      ".data)
         [.mk "client".data [] (some "\n        ".data)
           [.mk "clients".data [] (some "\n          ".data)
             [.mk "client".data [("uuid".data, "u".data)] (some "\n            ".data)
               [.mk "tunneladdress".data [] (some "10.0.0.2/32".data) []
                 (some "\n          ".data)]
               (some "\n          ".data),
              .mk "client".data [("uuid".data, "N".data)] (some "\n            ".data)
               [.mk "enabled".data [] (some "0".data) [] (some "\n            ".data),
                .mk "name".data [] (some "c".data) [] (some "\n            ".data),
                .mk "pubkey".data [] (some "P".data) [] (some "\n            ".data),
                .mk "psk".data [] (some "S".data) [] (some "\n            ".data),
                .mk "tunneladdress".data [] (some "10.0.0.3/32".data) []
                  (some "\n            ".data),
                .mk "serveraddress".data [] none [] (some "\n            ".data),
                .mk "serverport".data [] (some "7".data) [] (some "\n            ".data),
                .mk "keepalive".data [] (some "25".data) [] (some "\n          ".data)]
               (some "\n        ".data)]
             (some "\n      ".data)]
           (some "\n      ".data),
          .mk "server".data [] (some "\n        ".data)
           [.mk "servers".data [] (some "\n          ".data)
             [.mk "server".data [] (some "\n            ".data)
               [.mk "instance".data [] (some "0".data) [] (some "\n            ".data),
                .mk "name".data [] (some "w".data) [] (some "\n            ".data),
                .mk "pubkey".data [] (some "K".data) [] (some "\n            ".data),
                .mk "tunneladdress".data [] (some "10.0.0.1/29".data) []
                  (some "\n            ".data),
                .mk "port".data [] (some "7".data) [] (some "\n            ".data),
                .mk "peers".data [] (some "u,N".data) [] (some "\n          ".data)]
               (some "\n        ".data)]
             (some "\n      ".data)]
           (some "\n    ".data)]
         (some "\n  ".data)]
       (some "\n".data)]
    none

/-- The server configuration of the concrete run. -/
def c1sc : ServerConf :=
  { peers := ["u".data], pubkey := "K".data, tunneladdress := "10.0.0.1".data,
    netmask := 29, port := "7".data }

/-- The phase output of the concrete run on `c1root` (proved equal to the
run's result below). -/
def c1out : PhaseAOut :=
  { newRoot := c1newRoot, clientsPath := [1, 0, 0, 0],
    peersPath := [1, 0, 1, 0, 0, 5], safeIp := "10.0.0.3".data,
    updatedPeers := "u,N".data, serverConf := c1sc }

/-- The bytes the concrete run would write back. -/
def c1outBytes : PyStr := serializeNode c1newRoot

/-- The untouched unrelated node of `c1bytes`, as parsed. -/
def xNodeOfC1 : XNode := .mk "x".data [] none [] (some ('\n' :: ' ' :: ' ' :: []))

/-- The pool of a `parse_server_details` success, if any. -/
def psdOkPool (r : PSDResult) : Option (List Nat) :=
  match r with
  | .ok _ cc => some cc.net_range
  | _ => none

/-- A server record missing `pubkey` and `tunneladdress` (with `port`
present): the spec expects one aggregated report naming both. -/
def serverMissingTunnel : XNode :=
  .mk "server".data [] none
    [.mk "port".data [] (some "51820".data) [] none] none

/-- A server record missing `pubkey` and `port`, with a parseable
`tunneladdress`. -/
def serverMissingPubkeyPort : XNode :=
  .mk "server".data [] none
    [.mk "tunneladdress".data [] (some "10.0.0.1/24".data) [] none] none

/-- A server record whose `tunneladdress` carries a dotted netmask: accepted
by `ip_network`, but stripping `/prefixlen` leaves the string unchanged so
the host-address parse fails with the silently-passed `ValueError`. -/
def serverNetmaskForm : XNode :=
  .mk "server".data [] none
    [.mk "pubkey".data [] (some "SPK".data) [] none,
     .mk "tunneladdress".data [] (some "10.0.0.1/255.255.255.0".data) [] none,
     .mk "port".data [] (some "51820".data) [] none] none

/-- The server of the specification's allocation example:
`tunneladdress 10.0.0.1/24`, one listed peer `u1`. -/
def server9 : XNode :=
  .mk "server".data [] none
    [.mk "instance".data [] (some "0".data) [] none,
     .mk "name".data [] (some "wg0".data) [] none,
     .mk "pubkey".data [] (some "SPK".data) [] none,
     .mk "tunneladdress".data [] (some "10.0.0.1/24".data) [] none,
     .mk "port".data [] (some "51820".data) [] none,
     .mk "peers".data [] (some "u1".data) [] none] none

/-- The one existing peer of the example, at `10.0.0.2/32`. -/
def client9 : XNode :=
  .mk "client".data [("uuid".data, "u1".data)] none
    [.mk "tunneladdress".data [] (some "10.0.0.2/32".data) [] none] none

/-- The `server_conf` value `parse_server_details` produces for `server9`. -/
def sc9 : ServerConf :=
  { peers := ["u1".data], pubkey := "SPK".data, tunneladdress := "10.0.0.1".data,
    netmask := 24, port := "51820".data }

/-- The `client_conf` value `parse_server_details` produces for `server9`. -/
def cc9 : ClientConf :=
  { net_range := (hostsList (10 * 2 ^ 24) 24).erase (10 * 2 ^ 24 + 1) }

/-- A listed peer whose tunnel address does not parse. -/
def badClient : XNode :=
  .mk "client".data [("uuid".data, "u1".data)] none
    [.mk "tunneladdress".data [] (some "notanip".data) [] none] none

/-- A document whose selected server lists `badClient` as a peer. -/
def badRoot : XNode :=
  .mk "opnsense".data [] none
    [.mk "OPNsense".data [] none
      [.mk "wireguard".data [] none
        [.mk "client".data [] none
          [.mk "clients".data [] none [badClient] none] none,
         .mk "server".data [] none
          [.mk "servers".data [] none [server9] none] none] none] none] none

/-- A small well-formed document exercising attributes, text, children and
tails, used to witness the round-trip theorem. -/
def rtWitnessDoc : XNode :=
  .mk "a".data [("k".data, ('v' :: '&' :: '"' :: '\n' :: [] : PyStr))]
    (some ('x' :: '<' :: 'y' :: [] : PyStr))
    [.mk "b".data [] none [] (some ('\n' :: 't' :: [] : PyStr)),
     .mk "c".data [] (some "z".data) [] none] none

/-- Round-trip statement for one element (without its tail). -/
def RoundElem (n : XNode) : Prop :=
  ∀ (F : Nat) (r : PyStr), (serializeElem n).length < F → wfNode n = true →
    parseElem F (serializeElem n ++ r) = some (n.setTail none, r)

/-- Round-trip statement for element content: leading text, serialized
children, and the matching close tag. -/
def RoundKids (cs : List XNode) : Prop :=
  ∀ (F : Nat) (nm : PyStr) (tx : Option PyStr) (r : PyStr),
    wfKids cs = true → wfName nm = true → wfText tx = true →
    (escapeCdata (tx.getD [])).length + (serializeKids cs).length + nm.length + 3 ≤ F →
    parseContent F nm (escapeCdata (tx.getD []) ++ serializeKids cs
      ++ '<' :: '/' :: nm ++ '>' :: r)
      = some (tx, cs, r)

/-! # Theorems -/

set_option maxRecDepth 100000

/-- Appending one element to a nonempty intercalation inserts one more
separator. -/
theorem intercalate_append_last (sep x : PyStr) (l : List PyStr) (h : l ≠ []) :
    List.intercalate sep (l ++ [x]) = List.intercalate sep l ++ sep ++ x := by
  induction l with
  | nil => exact absurd rfl h
  | cons y l ih =>
    cases l with
    | nil =>
      simp [List.intercalate, List.intersperse]
    | cons z l2 =>
      have h2 : (z :: l2) ≠ [] := by simp
      have := ih h2
      simp only [List.cons_append, List.intercalate, List.intersperse_cons_cons,
        List.flatten_cons] at this ⊢
      simp [this]

/-- C7: for every existing server peers field and new peer identifier, the
updated peers field is the existing identifiers in their original order with
the new identifier appended last, comma-joined: an empty (or absent) peers
field yields just the identifier, and a field `A,B` yields `A,B,X`. -/
theorem c7_peers_append (raw x : PyStr) :
    updatedPeersField (parsePeersField (some raw)) x
        = (if raw.isEmpty then x else raw ++ ',' :: x)
    ∧ updatedPeersField (parsePeersField none) x = x := by
  constructor
  · by_cases h : raw.isEmpty
    · simp [parsePeersField, updatedPeersField, pyJoin, h, List.intercalate,
        List.intersperse]
    · by_cases h2 : pyCount raw [','] = 0
      · simp [parsePeersField, updatedPeersField, pyJoin, h, h2, List.intercalate,
          List.intersperse]
      · have hsne : raw.splitOn ',' ≠ [] := by
          intro hcon
          have := List.intercalate_splitOn raw ','
          rw [hcon] at this
          simp [List.intercalate] at this
          simp [List.isEmpty_iff, this] at h
        simp only [parsePeersField, updatedPeersField, pyJoin, pySplitChar, h2, h,
          if_false, if_neg (by simp [List.isEmpty_iff] at h ⊢; exact h)]
        simp only [Bool.false_eq_true, if_false]
        rw [intercalate_append_last _ _ _ hsne, List.intercalate_splitOn]
        simp
  · simp [parsePeersField, updatedPeersField, pyJoin, List.intercalate,
      List.intersperse]

/-- C4: the validation does not aggregate across a missing or unparseable
`tunneladdress`: a record missing `pubkey` and `tunneladdress` dies in an
uncaught `NameError` at `net.hosts()` instead of one error listing both
fields; the aggregation only materializes when the tunnel network parses,
as in the missing-`pubkey`-and-`port` record, which is reported with both
fields in one error. -/
theorem c4_aggregation_breaks_on_tunneladdress :
    parse_server_details serverMissingTunnel = .nameError
    ∧ parse_server_details serverMissingPubkeyPort
        = .fieldsExit ["public key (pubkey)".data, "port".data] := by
  constructor
  · rfl
  · decide

/-- C9: for the server at `10.0.0.1/24` with one existing peer at
`10.0.0.2/32`, the allocation pipeline yields `10.0.0.3`. -/
theorem c9_allocation_example :
    allocationOf server9 [client9] = some "10.0.0.3".data := by decide

/-- C10 counterexample: for a server whose `tunneladdress` is written with a
dotted netmask (`10.0.0.1/255.255.255.0`), `ip_network` parses it but the
`/prefixlen` strip leaves the string unchanged, so the host-address parse
fails with a `ValueError` that the code silently passes: the run proceeds
with no error surfaced, and the server's own address `10.0.0.1` is left in
the allocatable pool — a swallowed parse error, not an
absent-address-at-removal. -/
theorem c10_counterexample :
    psdOkPool (parse_server_details serverNetmaskForm) ≠ none
    ∧ ipAddressV4
        (pyReplace "10.0.0.1/255.255.255.0".data ('/' :: natToDigits 24) []) = none
    ∧ (10 * 2 ^ 24 + 1) ∈ (psdOkPool (parse_server_details serverNetmaskForm)).getD []
    := by
  refine ⟨by decide, by decide, by decide⟩

/-- C3 counterexample: with block `10.0.0.0/24`, server address `10.0.0.1`
and one listed peer address equal to the network address `10.0.0.0` (a
legal `/32` peer record), the exclusion loop raises and the run exits with
the generic peer failure even though `hosts(B) \ E` is far from empty
(e.g. `10.0.0.2` is free), instead of returning its minimum — and the
failure is not `NoAddressAvailable`. -/
theorem c3_counterexample :
    allocateFrom (10 * 2 ^ 24) 24 (10 * 2 ^ 24 + 1) [10 * 2 ^ 24] = .peerFailed
    ∧ (10 * 2 ^ 24 + 2) ∈ hostsMinusE (10 * 2 ^ 24) 24 (10 * 2 ^ 24 + 1) [10 * 2 ^ 24]
    := by
  refine ⟨by decide, by decide⟩

/-- C5: whenever the write fails after a successful backup, a successful
restore copies the backup — which holds exactly the original bytes — back
over the config, so the on-disk content is restored exactly; and a failed
restore ends in the `unrecoverable` outcome, a constructor distinct from the
recovered-write-failure outcome. -/
theorem c5_rollback (fs : FS) (newBytes junk : PyStr) (o : Oracle)
    (hb : o.backupOk = true) (hw : o.writeOk = false) :
    ((o.restoreOk = true →
        (txnWrite fs newBytes junk o).1.config = fs.config
        ∧ (txnWrite fs newBytes junk o).2.1 = .writeFailedRecovered)
      ∧ (o.restoreOk = false →
        (txnWrite fs newBytes junk o).2.1 = .unrecoverable))
    ∧ RunOutcome.unrecoverable ≠ RunOutcome.writeFailedRecovered := by
  refine ⟨⟨?_, ?_⟩, by decide⟩ <;> intro hr <;> simp [txnWrite, hb, hw, hr]

/-- Witness for C5 at a concrete filesystem and oracle. -/
theorem c5_rollback_witness :
    (txnWrite ⟨"C".data, none⟩ "N".data "J".data ⟨true, false, true⟩).1.config = "C".data
    ∧ (txnWrite ⟨"C".data, none⟩ "N".data "J".data ⟨true, false, true⟩).2.1
        = .writeFailedRecovered :=
  (c5_rollback ⟨"C".data, none⟩ "N".data "J".data ⟨true, false, true⟩ rfl rfl).1.1 rfl

/-- C6: in every run the config file is only ever written after the backup
event, the backup path being derived from the config path by suffix
replacement; and when the backup step fails the run ends with the
filesystem untouched and no write attempted. -/
theorem c6_backup_before_write (root : XNode) (ti uuid cname cpub cpsk : PyStr)
    (fs : FS) (junk : PyStr) (o : Oracle) :
    (Ev.writeEv ∈ (fullRun root ti uuid cname cpub cpsk fs junk o).2.2 →
      Ev.backupEv ∈ (fullRun root ti uuid cname cpub cpsk fs junk o).2.2
      ∧ (fullRun root ti uuid cname cpub cpsk fs junk o).2.2.indexOf Ev.backupEv
          < (fullRun root ti uuid cname cpub cpsk fs junk o).2.2.indexOf Ev.writeEv)
    ∧ (o.backupOk = false →
        (fullRun root ti uuid cname cpub cpsk fs junk o).1 = fs
        ∧ Ev.writeEv ∉ (fullRun root ti uuid cname cpub cpsk fs junk o).2.2)
    ∧ backupPathOf "/conf/config.xml".data = "/conf/config.wgback".data := by
  obtain ⟨b, w, r⟩ := o
  refine ⟨?_, ?_, by decide⟩ <;>
    cases h : mainPhaseA root ti uuid cname cpub cpsk <;>
      cases b <;> cases w <;> cases r <;>
        simp [fullRun, h, txnWrite]

/-- Witness for C6: a failing backup on the concrete run leaves the
filesystem untouched with no write event. -/
theorem c6_backup_before_write_witness :
    (fullRun c1root "0".data "N".data "c".data "P".data "S".data
        ⟨c1bytes, none⟩ [] ⟨false, true, true⟩).1 = ⟨c1bytes, none⟩
    ∧ Ev.writeEv ∉ (fullRun c1root "0".data "N".data "c".data "P".data
        "S".data ⟨c1bytes, none⟩ [] ⟨false, true, true⟩).2.2 :=
  (c6_backup_before_write c1root "0".data "N".data "c".data "P".data
    "S".data ⟨c1bytes, none⟩ [] ⟨false, true, true⟩).2.1 rfl

/-- C10 amended: in every run of `parse_server_details` that proceeds
without surfacing an error, all fields were present and the network parsed,
and the free pool differs from the full host list only by the removal of a
successfully parsed server address — so the tolerated conditions are
exactly the `ValueError` cases of the server-address removal: the address
absent from the pool (erase is the identity there), or the stripped
host-address string failing to parse (the pool then silently keeps the
server's address).  Every other parse or exclusion error is surfaced. -/
theorem c10_amended (s : XNode) (sc : ServerConf) (cc : ClientConf)
    (h : parse_server_details s = .ok sc cc) :
    findtext s "pubkey".data ≠ none ∧ findtext s "port".data ≠ none ∧
    ∃ t net p, findtext s "tunneladdress".data = some t
      ∧ ipNetworkV4 t false = some (net, p)
      ∧ cc.net_range = (match ipAddressV4 (pyReplace t ('/' :: natToDigits p) []) with
          | some a => (hostsList net p).erase a
          | none => hostsList net p) := by
  unfold parse_server_details at h
  cases hta : findtext s "tunneladdress".data with
  | none => rw [hta] at h; simp at h
  | some t =>
    rw [hta] at h
    cases hnet : ipNetworkV4 t false with
    | none => simp [hnet] at h
    | some np =>
      obtain ⟨net, p⟩ := np
      simp only [hnet] at h
      cases hpk : findtext s "pubkey".data with
      | none => rw [hpk] at h; simp at h
      | some pk =>
        rw [hpk] at h
        cases hport : findtext s "port".data with
        | none => rw [hport] at h; simp at h
        | some po =>
          rw [hport] at h
          simp at h
          obtain ⟨hsc, hcc⟩ := h
          refine ⟨by simp [hpk], by simp [hport], t, net, p, rfl, hnet, ?_⟩
          rw [← hcc]

/-- Witness for C10 amended, at the concrete example server. -/
theorem c10_amended_witness :
    findtext server9 "pubkey".data ≠ none ∧ findtext server9 "port".data ≠ none ∧
    ∃ t net p, findtext server9 "tunneladdress".data = some t
      ∧ ipNetworkV4 t false = some (net, p)
      ∧ cc9.net_range = (match ipAddressV4 (pyReplace t ('/' :: natToDigits p) []) with
          | some a => (hostsList net p).erase a
          | none => hostsList net p) :=
  c10_amended server9 sc9 cc9 (by decide)

/-- The host list of a block is strictly increasing. -/
theorem hostsList_sorted (net p : Nat) : List.Sorted (· < ·) (hostsList net p) := by
  unfold hostsList
  split <;>
  · rw [List.Sorted, List.pairwise_map]
    exact (List.sorted_lt_range _).imp (fun h => by omega)

/-- The head of a sorted list is its minimum. -/
theorem sorted_head_min (l : List Nat) (h : List.Sorted (· < ·) l) (m : Nat)
    (hm : l.head? = some m) : ∀ x ∈ l, m ≤ x := by
  cases l with
  | nil => cases hm
  | cons y l =>
    cases hm
    intro x hx
    rcases List.mem_cons.1 hx with hx | hx
    · omega
    · exact le_of_lt ((List.pairwise_cons.1 h).1 x hx)

/-- Removing a duplicate-free list of present elements one by one from a
duplicate-free pool never raises and amounts to a filter. -/
theorem removeEach_eq_filter (peers : List Nat) :
    ∀ pool : List Nat, pool.Nodup → (∀ a ∈ peers, a ∈ pool) → peers.Nodup →
      removeEach peers pool = some (pool.filter (fun b => !(peers.contains b))) := by
  induction peers with
  | nil =>
    intro pool _ _ _
    simp [removeEach]
  | cons a rest ih =>
    intro pool hpool hmem hnd
    have ha : a ∈ pool := hmem a (by simp)
    rw [removeEach, if_pos ha]
    have hnda : a ∉ rest := (List.nodup_cons.1 hnd).1
    have hstep := ih (pool.erase a) (hpool.erase a)
      (fun b hb => (hpool.mem_erase_iff).2
        ⟨fun hba => hnda (hba ▸ hb), hmem b (by simp [hb])⟩)
      (List.nodup_cons.1 hnd).2
    rw [hstep]
    congr 1
    rw [hpool.erase_eq_filter a, List.filter_filter]
    apply List.filter_congr
    intro x _
    by_cases hx : x = a <;> by_cases hr : x ∈ rest <;>
      simp [hx, hr, List.contains_cons, bne]

/-- C3 amended: with `hosts(B)` as the library computes it (network and
broadcast excluded for prefixes up to `/30`; every block address for `/31`
and `/32` per RFC 3021), and for exclusion sets whose listed peer addresses
are duplicate-free, lie in `hosts(B)` and differ from the server address,
the allocation returns the minimum element of `hosts(B) \ E` and fails —
with the `IndexError` standing for `NoAddressAvailable` — exactly when
that set is empty. -/
theorem c3_amended (net p sa : Nat) (peers : List Nat)
    (hnd : peers.Nodup)
    (hmem : ∀ a ∈ peers, a ∈ hostsList net p ∧ a ≠ sa) :
    (hostsMinusE net p sa peers = [] → allocateFrom net p sa peers = .noAddress)
    ∧ (∀ m, (hostsMinusE net p sa peers).head? = some m →
        allocateFrom net p sa peers = .ok m
        ∧ ∀ x ∈ hostsMinusE net p sa peers, m ≤ x) := by
  have hsort := hostsList_sorted net p
  have hnodup : (hostsList net p).Nodup := hsort.nodup
  have hpool1 : (hostsList net p).erase sa
      = (hostsList net p).filter (fun b => b != sa) := hnodup.erase_eq_filter sa
  have hmem1 : ∀ a ∈ peers, a ∈ (hostsList net p).erase sa := fun a ha =>
    (hnodup.mem_erase_iff).2 ⟨(hmem a ha).2, (hmem a ha).1⟩
  have hrem := removeEach_eq_filter peers ((hostsList net p).erase sa)
    (hnodup.erase sa) hmem1 hnd
  have hpool2 : ((hostsList net p).erase sa).filter (fun b => !(peers.contains b))
      = hostsMinusE net p sa peers := by
    rw [hpool1, List.filter_filter]
    exact List.filter_congr (fun x _ => Bool.and_comm _ _)
  have halloc : allocateFrom net p sa peers
      = (match (hostsMinusE net p sa peers).head? with
         | some a => .ok a
         | none => .noAddress) := by
    simp only [allocateFrom]
    rw [hrem, hpool2]
  have hsortE : List.Sorted (· < ·) (hostsMinusE net p sa peers) := by
    rw [hostsMinusE, List.Sorted]
    exact List.Pairwise.filter _ hsort
  constructor
  · intro hempty
    rw [halloc, hempty]
    rfl
  · intro m hm
    rw [halloc, hm]
    exact ⟨rfl, sorted_head_min _ hsortE m hm⟩

/-- Witness for C3 amended: block `10.0.0.0/24`, server `10.0.0.1`, one
listed peer `10.0.0.2`, allocating `10.0.0.3`. -/
theorem c3_amended_witness :
    allocateFrom (10 * 2 ^ 24) 24 (10 * 2 ^ 24 + 1) [10 * 2 ^ 24 + 2]
      = .ok (10 * 2 ^ 24 + 3) :=
  (((c3_amended (10 * 2 ^ 24) 24 (10 * 2 ^ 24 + 1) [10 * 2 ^ 24 + 2]
    (by decide) (by decide)).2) (10 * 2 ^ 24 + 3) (by decide)).1

/-- When a listed client's tunnel address does not parse, the exclusion loop
exits for every pool it is run on. -/
theorem clientLoop_fails_on_bad (c : XNode) (u : PyStr) (peers : List PyStr)
    (hu : attrGet c "uuid".data = some u) (hup : u ∈ peers)
    (hbad : clientTunnelOf c = none) :
    ∀ clients : List XNode, c ∈ clients →
      ∀ pool, clientLoop clients peers pool = none := by
  intro clients
  induction clients with
  | nil => intro hc; cases hc
  | cons c0 rest ih =>
    intro hc pool
    rcases List.mem_cons.1 hc with hceq | hcr
    · subst hceq
      unfold clientTunnelOf at hbad
      rw [clientLoop]
      cases hft : findtext c "tunneladdress".data with
      | none => simp [hu, hup, hft]
      | some t =>
        rw [hft] at hbad
        simp only [Option.some.injEq] at hbad
        simp [hu, hup, hft, hbad]
    · rw [clientLoop]
      cases hattr : attrGet c0 "uuid".data with
      | none => simpa [hattr] using ih hcr pool
      | some u0 =>
        by_cases hu0 : u0 ∈ peers
        · cases hft : findtext c0 "tunneladdress".data with
          | none => simp [hattr, hu0, hft]
          | some t0 =>
            cases hnet : ipNetworkV4 t0 true with
            | none => simp [hattr, hu0, hft, hnet]
            | some np =>
              by_cases hin : np.1 ∈ pool
              · simpa [hattr, hu0, hft, hnet, hin] using ih hcr (pool.erase np.1)
              · simp [hattr, hu0, hft, hnet, hin]
        · simpa [hattr, hu0] using ih hcr pool

/-- C8: a client whose identifier appears in the selected server's peers
list but whose tunnel address does not parse makes the run fail hard — the
exclusion loop exits — before any mutation: the filesystem is untouched and
no disk event happens; the peer is never silently skipped from the excluded
set. -/
theorem c8_unparseable_peer_aborts (root : XNode) (ti uuid cname cpub cpsk : PyStr)
    (fs : FS) (junk : PyStr) (o : Oracle)
    (sp : List Nat) (i : Nat) (srv : XNode) (sc : ServerConf) (cc : ClientConf)
    (c : XNode) (u : PyStr)
    (hsel : selectionPhase root ti = .ok (sp, i, srv))
    (hpsd : parse_server_details srv = .ok sc cc)
    (hc : c ∈ clientsOf root) (hu : attrGet c "uuid".data = some u)
    (hup : u ∈ sc.peers) (hbad : clientTunnelOf c = none) :
    mainPhaseA root ti uuid cname cpub cpsk = .error .clientLoopFailed
    ∧ fullRun root ti uuid cname cpub cpsk fs junk o
        = (fs, .abortedBeforeBackup .clientLoopFailed, []) := by
  have hloop := clientLoop_fails_on_bad c u sc.peers hu hup hbad
    (clientsOf root) hc cc.net_range
  have hmain : mainPhaseA root ti uuid cname cpub cpsk = .error .clientLoopFailed := by
    simp only [mainPhaseA, hsel, hpsd, hloop]
  exact ⟨hmain, by rw [fullRun, hmain]⟩

/-- Witness for C8: the concrete document whose listed peer has address
`notanip`. -/
theorem c8_unparseable_peer_aborts_witness :
    mainPhaseA badRoot "0".data "N".data "c".data "P".data "S".data
      = .error .clientLoopFailed
    ∧ fullRun badRoot "0".data "N".data "c".data "P".data "S".data
        ⟨c1bytes, none⟩ [] ⟨true, true, true⟩
      = (⟨c1bytes, none⟩, .abortedBeforeBackup .clientLoopFailed, []) :=
  c8_unparseable_peer_aborts badRoot "0".data "N".data "c".data "P".data
    "S".data ⟨c1bytes, none⟩ [] ⟨true, true, true⟩
    ([0, 0, 1, 0]) 0 server9 sc9 cc9 badClient "u1".data
    rfl (by decide)
    (by show badClient ∈ [badClient]; exact List.mem_singleton_self badClient)
    rfl (by decide) rfl

/-- Rewriting a subtree at one path leaves the subtree at any
prefix-incomparable path unchanged. -/
theorem subtreeAt_update_frame (q : List Nat) :
    ∀ (n n2 : XNode) (p : List Nat) (f : XNode → Option XNode),
      updateAtPath n q f = some n2 →
      ¬ p <+: q → ¬ q <+: p →
      subtreeAt n2 p = subtreeAt n p := by
  induction q with
  | nil =>
    intro n n2 p f _ _ h2
    exact absurd List.nil_prefix h2
  | cons j q ih =>
    intro n n2 p f hupd h1 h2
    cases p with
    | nil => exact absurd List.nil_prefix h1
    | cons i p' =>
      rw [updateAtPath] at hupd
      split at hupd
      · rename_i cj hget
        cases hrec : updateAtPath cj q f with
        | none => rw [hrec] at hupd; cases hupd
        | some cj2 =>
          rw [hrec] at hupd
          simp only [Option.map_some', Option.some.injEq] at hupd
          subst hupd
          rw [subtreeAt, subtreeAt]
          by_cases hij : i = j
          · subst hij
            have hlt : i < n.children.length := by
              by_contra hge
              rw [List.getElem?_eq_none (by omega)] at hget
              cases hget
            have h1' : ¬ p' <+: q := fun hh => h1 (List.cons_prefix_cons.2 ⟨rfl, hh⟩)
            have h2' : ¬ q <+: p' := fun hh => h2 (List.cons_prefix_cons.2 ⟨rfl, hh⟩)
            rw [show (n.setChildren (n.children.set i cj2)).children
                = n.children.set i cj2 from by cases n; rfl]
            rw [List.getElem?_set_self (by simpa using hlt), hget]
            exact ih cj cj2 p' f hrec h1' h2'
          · rw [show (n.setChildren (n.children.set j cj2)).children
                = n.children.set j cj2 from by cases n; rfl]
            rw [List.getElem?_set_ne (by omega)]
      · cases hupd

/-- A successful in-memory phase mutates the document by exactly the two
path rewrites of `mutateDoc`, at the clients-container path and the
server-peers path it reports. -/
theorem mainPhaseA_ok_mutate (root : XNode) (ti uuid cname cpub cpsk : PyStr)
    (out : PhaseAOut) (h : mainPhaseA root ti uuid cname cpub cpsk = .ok out) :
    ∃ specs upd, mutateDoc root out.clientsPath out.peersPath uuid specs upd
      = some out.newRoot := by
  simp only [mainPhaseA] at h
  repeat (split at h <;> try exact Except.noConfusion h)
  injection h with h2
  subst h2
  exact ⟨_, _, by assumption⟩

/-- C1 amended: in every run that reaches the mutation, any node at a path
that is prefix-incomparable with both mutation sites (the clients container
and the selected server's `peers` child) is bit-for-bit the same subtree
afterwards, and hence serializes to the same bytes; byte-identity with the
input stream additionally needs the input to be in the serializer's
canonical form, because the writer re-serializes every node (see the
counterexample). -/
theorem c1_untouched_subtrees_preserved (root : XNode)
    (ti uuid cname cpub cpsk : PyStr) (out : PhaseAOut) (p : List Nat) (n : XNode)
    (hrun : mainPhaseA root ti uuid cname cpub cpsk = .ok out)
    (hp1 : ¬ p <+: out.clientsPath) (hp2 : ¬ out.clientsPath <+: p)
    (hp3 : ¬ p <+: out.peersPath) (hp4 : ¬ out.peersPath <+: p)
    (hsub : subtreeAt root p = some n) :
    subtreeAt out.newRoot p = some n
    ∧ (subtreeAt out.newRoot p).map serializeNode = some (serializeNode n) := by
  obtain ⟨specs, upd, hmut⟩ :=
    mainPhaseA_ok_mutate root ti uuid cname cpub cpsk out hrun
  unfold mutateDoc at hmut
  rcases Option.bind_eq_some.1 hmut with ⟨r1, hu1, hu2⟩
  have e1 := subtreeAt_update_frame out.clientsPath root r1 p _ hu1 hp1 hp2
  have e2 := subtreeAt_update_frame out.peersPath r1 out.newRoot p _ hu2 hp3 hp4
  have hpres : subtreeAt out.newRoot p = some n := by rw [e2, e1, hsub]
  exact ⟨hpres, by rw [hpres]; rfl⟩

set_option maxHeartbeats 4000000

/-- Witness for C1 amended: on the concrete document, the unrelated `<x>`
node at path `[0]` is untouched by the run. -/
theorem c1_untouched_subtrees_preserved_witness :
    subtreeAt c1out.newRoot [0] = some xNodeOfC1
    ∧ (subtreeAt c1out.newRoot [0]).map serializeNode
        = some (serializeNode xNodeOfC1) :=
  c1_untouched_subtrees_preserved c1root "0".data "N".data "c".data
    "P".data "S".data c1out [0] xNodeOfC1
    (by decide) (by decide) (by decide) (by decide) (by decide) (by decide)

/-- C1 counterexample: on the concrete run the `<x>` node is untouched (its
subtree is unchanged, at a path incomparable with both mutation sites), yet
the output bytes do not reproduce its source form `<x></x>` — the writer
normalizes it to `<x />` — so an untouched node does not serialize
byte-identically to its form in the input stream. -/
theorem c1_counterexample :
    parseDoc c1bytes = some c1root
    ∧ mainPhaseA c1root "0".data "N".data "c".data "P".data "S".data = .ok c1out
    ∧ pyCount c1bytes "<x></x>".data = 1
    ∧ subtreeAt c1root [0] = some xNodeOfC1
    ∧ subtreeAt c1newRoot [0] = some xNodeOfC1
    ∧ pyCount c1outBytes "<x></x>".data = 0
    ∧ pyCount c1outBytes ('<' :: 'x' :: ' ' :: '/' :: '>' :: []) = 1 :=
  ⟨by decide, by decide, by decide, by decide, by decide, by decide, by decide⟩

/-- C2 counterexample: the well-formed input `<a></a>` parses, but
re-serializing with no mutation yields `<a />` — the writer normalizes empty
elements, so `Serialize(Parse(bytes))` is not byte-identical to the
input. -/
theorem c2_counterexample :
    (parseDoc "<a></a>".data).map serializeNode = some "<a />".data
    ∧ "<a />".data ≠ "<a></a>".data :=
  ⟨by decide, by decide⟩

/-- Name characters are not whitespace and differ from the parser's
delimiters. -/
theorem isNameChar_facts {c : Char} (h : isNameChar c = true) :
    isXmlWs c = false ∧ c ≠ '/' ∧ c ≠ '>' ∧ c ≠ '=' := by
  refine ⟨?_, ?_, ?_, ?_⟩
  · by_contra hw
    have hw2 : isXmlWs c = true := by simpa using hw
    have : ((c = ' ' ∨ c = '\n') ∨ c = '\t') ∨ c = '\r' := by
      simpa [isXmlWs] using hw2
    rcases this with ((h1 | h1) | h1) | h1 <;> (subst h1; exact absurd h (by decide))
  · intro h1; subst h1; exact absurd h (by decide)
  · intro h1; subst h1; exact absurd h (by decide)
  · intro h1; subst h1; exact absurd h (by decide)

/-- `takeWhile`/`dropWhile` on an append whose left part satisfies the
predicate and whose right part starts with a failing character. -/
theorem takeWhile_append_stop {p : Char → Bool} (l r : PyStr)
    (hl : ∀ c ∈ l, p c = true)
    (hr : ∀ c rs, r = c :: rs → p c = false) :
    (l ++ r).takeWhile p = l ∧ (l ++ r).dropWhile p = r := by
  induction l with
  | nil =>
    cases r with
    | nil => simp
    | cons c rs => simp [List.takeWhile_cons, List.dropWhile_cons, hr c rs rfl]
  | cons a l ih =>
    have ha := hl a (by simp)
    have hrec := ih (fun c hc => hl c (by simp [hc]))
    simp [List.takeWhile_cons, List.dropWhile_cons, ha, hrec.1, hrec.2]

/-- The text-shape test the parser applies agrees with the parsed value on
well-formed text. -/
theorem wfText_if_empty (tx : Option PyStr) (h : wfText tx = true) :
    (if (tx.getD []).isEmpty then none else some (tx.getD [])) = tx := by
  cases tx with
  | none => simp
  | some t =>
    have h1 : ¬ t.isEmpty = true := by
      unfold wfText at h
      simp at h
      simp [List.isEmpty_iff, h.1]
    simp [h1]

/-- Parsing a serialized text chunk recovers the text up to the next tag
opener. -/
theorem parseTextChunk_round (t : PyStr) :
    ∀ (F : Nat) (r : PyStr), (escapeCdata t).length < F → r.head? = some '<' →
      parseTextChunk F (escapeCdata t ++ r) = some (t, r) := by
  induction t with
  | nil =>
    intro F r hF hr
    cases r with
    | nil => cases hr
    | cons c rs =>
      simp only [List.head?_cons, Option.some.injEq] at hr
      subst hr
      obtain ⟨F2, rfl⟩ : ∃ F2, F = F2 + 1 := ⟨F - 1, by omega⟩
      simp [escapeCdata, parseTextChunk]
  | cons c t ih =>
    intro F r hF hr
    have hlen : (escapeCdata t).length + 1 ≤ (escapeCdata (c :: t)).length := by
      rw [show escapeCdata (c :: t) = (if c = '&' then "&amp;".data
        else if c = '<' then "&lt;".data else if c = '>' then "&gt;".data
        else [c]) ++ escapeCdata t from rfl]
      split <;> (try split) <;> (try split) <;> simp
    obtain ⟨F2, rfl⟩ : ∃ F2, F = F2 + 1 := ⟨F - 1, by omega⟩
    have hih := ih F2 r (by omega) hr
    by_cases h1 : c = '&'
    · subst h1; simp [escapeCdata, parseTextChunk, parseEntity, hih]
    · by_cases h2 : c = '<'
      · subst h2; simp [escapeCdata, parseTextChunk, parseEntity, hih]
      · by_cases h3 : c = '>'
        · subst h3; simp [escapeCdata, parseTextChunk, parseEntity, hih]
        · simp [escapeCdata, parseTextChunk, h1, h2, h3, hih]

theorem parseAttrValue_round (v : PyStr) :
    ∀ (F : Nat) (r : PyStr), (escapeAttrib v).length < F →
      parseAttrValue F '"' (escapeAttrib v ++ '"' :: r) = some (v, r) := by
  induction v with
  | nil =>
    intro F r hF
    obtain ⟨F2, rfl⟩ : ∃ F2, F = F2 + 1 := ⟨F - 1, by omega⟩
    simp [escapeAttrib, parseAttrValue]
  | cons c v ih =>
    intro F r hF
    have hlen : (escapeAttrib v).length + 1 ≤ (escapeAttrib (c :: v)).length := by
      rw [show escapeAttrib (c :: v) = (if c = '&' then "&amp;".data
        else if c = '<' then "&lt;".data
        else if c = '>' then "&gt;".data
        else if c = '"' then "&quot;".data
        else if c = '\r' then "&#13;".data
        else if c = '\n' then "&#10;".data
        else if c = '\t' then "&#09;".data
        else [c]) ++ escapeAttrib v from rfl]
      split <;> (try split) <;> (try split) <;> (try split) <;> (try split) <;>
        (try split) <;> (try split) <;> simp
    obtain ⟨F2, rfl⟩ : ∃ F2, F = F2 + 1 := ⟨F - 1, by omega⟩
    have hih := ih F2 r (by omega)
    have hCR : Char.ofNat 13 = '\r' := rfl
    have hLF : Char.ofNat 10 = '\n' := rfl
    have hTB : Char.ofNat 9 = '\t' := rfl
    have h13 : digitsToNat ('1' :: '3' :: []) = 13 := rfl
    have h10 : digitsToNat ('1' :: '0' :: []) = 10 := rfl
    have h09 : digitsToNat ('0' :: '9' :: []) = 9 := rfl
    by_cases h1 : c = '&'
    · subst h1; simp [escapeAttrib, parseAttrValue, parseEntity, hih]
    · by_cases h2 : c = '<'
      · subst h2; simp [escapeAttrib, parseAttrValue, parseEntity, hih]
      · by_cases h3 : c = '>'
        · subst h3; simp [escapeAttrib, parseAttrValue, parseEntity, hih]
        · by_cases h4 : c = '"'
          · subst h4; simp [escapeAttrib, parseAttrValue, parseEntity, hih]
          · by_cases h5 : c = '\r'
            · subst h5
              simp [escapeAttrib, parseAttrValue, parseEntity, hih,
                List.takeWhile_cons, List.dropWhile_cons, isDigitChar,
                h13, hCR]
            · by_cases h6 : c = '\n'
              · subst h6
                simp [escapeAttrib, parseAttrValue, parseEntity, hih,
                  List.takeWhile_cons, List.dropWhile_cons, isDigitChar,
                  h10, hLF]
              · by_cases h7 : c = '\t'
                · subst h7
                  simp [escapeAttrib, parseAttrValue, parseEntity, hih,
                    List.takeWhile_cons, List.dropWhile_cons, isDigitChar,
                    h09, hTB]
                · simp [escapeAttrib, parseAttrValue, h1, h2, h3, h4, h5, h6, h7, hih]

theorem parseAttrs_round (a : List (PyStr × PyStr)) :
    a.all (fun kv => wfName kv.1 && wfAttrVal kv.2) = true →
    ∀ (F : Nat) (b : Bool) (r : PyStr), (serializeAttrs a).length < F →
      parseAttrs F (serializeAttrs a ++ (if b then ' ' :: '/' :: '>' :: r else '>' :: r))
        = some (a, b, r) := by
  induction a with
  | nil =>
    intro _ F b r hF
    obtain ⟨F2, rfl⟩ : ∃ F2, F = F2 + 1 := ⟨F - 1, by omega⟩
    cases b <;> simp [serializeAttrs, parseAttrs, isXmlWs]
  | cons kv rest ih =>
    intro hwf F b r hF
    obtain ⟨k, v⟩ := kv
    have hk : wfName k = true ∧ wfAttrVal v = true := by
      rw [List.all_cons, Bool.and_eq_true] at hwf
      simpa using hwf.1
    have hrest : rest.all (fun kv => wfName kv.1 && wfAttrVal kv.2) = true := by
      rw [List.all_cons, Bool.and_eq_true] at hwf
      exact hwf.2
    obtain ⟨kc, k2, rfl⟩ : ∃ kc k2, k = kc :: k2 := by
      cases hke : k with
      | nil => rw [hke] at hk; exact absurd hk.1 (by simp [wfName])
      | cons kc k2 => exact ⟨kc, k2, rfl⟩
    have hkall : ∀ c ∈ kc :: k2, isNameChar c = true := by
      intro c hc
      have := hk.1
      simp [wfName] at this
      rcases hc with _ | hc
      · exact this.1
      · exact this.2 c (by assumption)
    have hkc := hkall kc (by simp)
    have hkcf := isNameChar_facts hkc
    obtain ⟨F2, rfl⟩ : ∃ F2, F = F2 + 1 := ⟨F - 1, by omega⟩
    -- the serialized head attribute, with the remaining input
    have hshape : serializeAttrs ((kc :: k2, v) :: rest)
        ++ (if b then ' ' :: '/' :: '>' :: r else '>' :: r)
        = ' ' :: ((kc :: k2) ++ ('=' :: '"' :: (escapeAttrib v ++ '"' ::
            (serializeAttrs rest ++ (if b then ' ' :: '/' :: '>' :: r else '>' :: r))))) := by
      simp [serializeAttrs]
    have htk := takeWhile_append_stop (p := isNameChar) (kc :: k2)
      ('=' :: '"' :: (escapeAttrib v ++ '"' ::
        (serializeAttrs rest ++ (if b then ' ' :: '/' :: '>' :: r else '>' :: r))))
      hkall (by intro c rs he; cases he; decide)
    have hval := parseAttrValue_round v
      ((escapeAttrib v ++ '"' :: (serializeAttrs rest
        ++ (if b then ' ' :: '/' :: '>' :: r else '>' :: r))).length + 1)
      (serializeAttrs rest ++ (if b then ' ' :: '/' :: '>' :: r else '>' :: r))
      (by simp [List.length_append]; omega)
    simp only [List.length_append, List.length_cons] at hval
    have hihr := ih hrest F2 b r (by
      have : (serializeAttrs ((kc :: k2, v) :: rest)).length
          = (serializeAttrs rest).length + (kc :: k2).length + (escapeAttrib v).length + 4 := by
        simp [serializeAttrs, List.length_append]
        omega
      omega)
    rw [hshape, parseAttrs]
    simp only [List.dropWhile_cons, show isXmlWs ' ' = true from rfl, if_true,
      show isXmlWs kc = false from hkcf.1, if_false]
    simp only [List.cons_append] at htk ⊢
    rw [show ((kc :: (k2 ++ '=' :: '"' :: (escapeAttrib v ++ '"' ::
      (serializeAttrs rest ++ (if b then ' ' :: '/' :: '>' :: r else '>' :: r)))))).dropWhile isXmlWs
      = kc :: (k2 ++ '=' :: '"' :: (escapeAttrib v ++ '"' ::
        (serializeAttrs rest ++ (if b then ' ' :: '/' :: '>' :: r else '>' :: r))))
      from by rw [List.dropWhile_cons, hkcf.1]; simp]
    have htd : List.dropWhile isNameChar (k2 ++ '=' :: '"' :: (escapeAttrib v
        ++ '"' :: (serializeAttrs rest
          ++ if b = true then ' ' :: '/' :: '>' :: r else '>' :: r)))
        = '=' :: '"' :: (escapeAttrib v ++ '"' :: (serializeAttrs rest
          ++ if b = true then ' ' :: '/' :: '>' :: r else '>' :: r)) := by
      have h2 := htk.2
      rw [List.dropWhile_cons, hkc] at h2
      simpa using h2
    simp [htk.1, htk.2, hkcf.2.1, hkcf.2.2.1, hkc, hval, hihr, htd,
      show isXmlWs '=' = false from rfl, show isXmlWs '"' = false from rfl]

/-- Restoring the recorded tail after parsing recovers the node. -/
theorem setTail_roundtrip (c : XNode) : (c.setTail none).setTail c.tail = c := by
  cases c; rfl

/-- Content round-trip, empty child list. -/
theorem roundStep_nil : RoundKids [] := by
  intro F nm tx r _ hnm htx hF
  obtain ⟨F2, rfl⟩ : ∃ F2, F = F2 + 1 := ⟨F - 1, by omega⟩
  rw [show serializeKids [] = [] from rfl]
  simp only [List.nil_append, List.cons_append, List.append_assoc]
  rw [parseContent]
  have htc := parseTextChunk_round (tx.getD [])
    ((escapeCdata (tx.getD []) ++ '<' :: '/' :: (nm ++ '>' :: r)).length + 1)
    ('<' :: '/' :: (nm ++ '>' :: r))
    (by simp [List.length_append]; omega) (by simp)
  simp only [List.cons_append, List.append_assoc] at htc
  rw [htc]
  have hnmall : ∀ c ∈ nm, isNameChar c = true := by
    intro c hc
    simp [wfName] at hnm
    exact hnm.2 c hc
  have htk := takeWhile_append_stop (p := isNameChar) nm ('>' :: r) hnmall
    (by intro c rs he; cases he; decide)
  simp only [wfText_if_empty tx htx]
  simp [List.isPrefixOf, htk.1, htk.2, List.dropWhile_cons,
    show isXmlWs '>' = false from rfl]

/-- Content round-trip, cons case. -/
theorem roundStep_cons (c : XNode) (cs : List XNode)
    (hp : RoundElem c) (hq : RoundKids cs) : RoundKids (c :: cs) := by
  intro F nm tx r hwf hnm htx hF
  obtain ⟨F2, rfl⟩ : ∃ F2, F = F2 + 1 := ⟨F - 1, by omega⟩
  have hwc : wfNode c = true ∧ wfKids cs = true := by
    simpa [wfKids, Bool.and_eq_true] using hwf
  have hks : serializeKids (c :: cs)
      = serializeElem c ++ escapeCdata (c.tail.getD []) ++ serializeKids cs := rfl
  -- the tag of c is nonempty and made of name characters
  obtain ⟨tg, ta, ttx, tcs, tl, hc⟩ :
      ∃ tg ta ttx tcs tl, c = XNode.mk tg ta ttx tcs tl := by
    cases c; exact ⟨_, _, _, _, _, rfl⟩
  subst hc
  simp only [XNode.tail] at hks
  have hwn : wfName tg = true ∧ wfText tl = true := by
    have := hwc.1
    simp [wfNode, Bool.and_eq_true] at this
    exact ⟨this.1.1.1.1, this.1.2⟩
  obtain ⟨tgc, tg2, htg⟩ : ∃ tgc tg2, tg = tgc :: tg2 := by
    cases hte : tg with
    | nil => rw [hte] at hwn; exact absurd hwn.1 (by simp [wfName])
    | cons tgc tg2 => exact ⟨tgc, tg2, rfl⟩
  subst htg
  have htgc : isNameChar tgc = true := by
    have := hwn.1
    simp [wfName] at this
    exact this.1
  obtain ⟨sr, hse⟩ : ∃ sr,
      serializeElem (XNode.mk (tgc :: tg2) ta ttx tcs tl) = '<' :: tgc :: sr :=
    ⟨tg2 ++ serializeAttrs ta ++
      (if (ttx.getD []).isEmpty && tcs.isEmpty then ' ' :: '/' :: '>' :: []
       else '>' :: escapeCdata (ttx.getD []) ++ serializeKids tcs ++
            '<' :: '/' :: (tgc :: tg2) ++ ['>']), by simp [serializeElem]⟩
  have hselen : (serializeElem (XNode.mk (tgc :: tg2) ta ttx tcs tl)).length
      = sr.length + 2 := by rw [hse]; simp
  have hkslen : (serializeKids (XNode.mk (tgc :: tg2) ta ttx tcs tl :: cs)).length
      = (serializeElem (XNode.mk (tgc :: tg2) ta ttx tcs tl)).length
        + (escapeCdata (tl.getD [])).length + (serializeKids cs).length := by
    rw [hks]
    simp only [List.length_append]
  rw [hks, parseContent]
  -- normalize the input shape
  simp only [List.append_assoc, List.cons_append]
  have htc := parseTextChunk_round (tx.getD [])
    ((escapeCdata (tx.getD []) ++ (serializeElem (XNode.mk (tgc :: tg2) ta ttx tcs tl)
      ++ (escapeCdata (tl.getD []) ++ (serializeKids cs
        ++ '<' :: '/' :: (nm ++ '>' :: r))))).length + 1)
    (serializeElem (XNode.mk (tgc :: tg2) ta ttx tcs tl)
      ++ (escapeCdata (tl.getD []) ++ (serializeKids cs
        ++ '<' :: '/' :: (nm ++ '>' :: r))))
    (by simp [List.length_append]; omega)
    (by rw [hse]; simp)
  simp only [List.append_assoc, List.cons_append] at htc
  rw [htc]
  simp only [wfText_if_empty tx htx]
  have hnp : (['<', '/'] : PyStr).isPrefixOf
      (serializeElem (XNode.mk (tgc :: tg2) ta ttx tcs tl)
        ++ (escapeCdata (tl.getD []) ++ (serializeKids cs
          ++ '<' :: '/' :: (nm ++ '>' :: r)))) = false := by
    rw [hse]
    have := (isNameChar_facts htgc).2.1
    simp [List.isPrefixOf]
    intro hcon
    exact absurd hcon.symm this
  simp only [List.append_assoc, List.cons_append] at hnp
  rw [hnp]
  simp only [Bool.false_eq_true, if_false]
  have hel := hp F2
    (escapeCdata (tl.getD []) ++ (serializeKids cs ++ '<' :: '/' :: (nm ++ '>' :: r)))
    (by omega) hwc.1
  simp only [List.append_assoc, List.cons_append] at hel
  rw [hel]
  have hct := hq F2 nm tl r hwc.2 hnm hwn.2 (by omega)
  simp only [List.append_assoc, List.cons_append] at hct
  show (match parseContent F2 nm
      (escapeCdata (tl.getD []) ++ (serializeKids cs ++ '<' :: '/' :: (nm ++ '>' :: r))) with
    | some (ctail, kids, r3) =>
      some (tx, ((XNode.mk (tgc :: tg2) ta ttx tcs tl).setTail none).setTail ctail :: kids, r3)
    | none => none) = some (tx, XNode.mk (tgc :: tg2) ta ttx tcs tl :: cs, r)
  rw [hct]
  rfl


/-- Element round-trip: parsing a serialized well-formed element recovers it
with a cleared tail. -/
theorem roundStep_mk (t : PyStr) (a : List (PyStr × PyStr)) (tx : Option PyStr)
    (cs : List XNode) (tl : Option PyStr) (hk : RoundKids cs) :
    RoundElem (XNode.mk t a tx cs tl) := by
  intro F r hF hwf
  obtain ⟨F2, rfl⟩ : ∃ F2, F = F2 + 1 := ⟨F - 1, by omega⟩
  have hw : wfName t = true ∧ a.all (fun kv => wfName kv.1 && wfAttrVal kv.2) = true ∧
      wfText tx = true ∧ wfText tl = true ∧ wfKids cs = true := by
    have h2 := hwf
    simp only [wfNode, Bool.and_eq_true] at h2
    exact ⟨h2.1.1.1.1, h2.1.1.1.2, h2.1.1.2, h2.1.2, h2.2⟩
  have hse : serializeElem (XNode.mk t a tx cs tl)
      = '<' :: t ++ serializeAttrs a ++
        (if (tx.getD []).isEmpty && cs.isEmpty then ' ' :: '/' :: '>' :: []
         else '>' :: escapeCdata (tx.getD []) ++ serializeKids cs ++
              '<' :: '/' :: t ++ ['>']) := rfl
  have hstop : ∀ c rs,
      serializeAttrs a ++
        ((if (tx.getD []).isEmpty && cs.isEmpty then ' ' :: '/' :: '>' :: ([] : PyStr)
          else '>' :: escapeCdata (tx.getD []) ++ serializeKids cs ++
               '<' :: '/' :: t ++ ['>']) ++ r) = c :: rs →
      isNameChar c = false := by
    intro c rs hcr
    cases a with
    | cons kv as =>
      rw [show serializeAttrs (kv :: as)
          = ' ' :: (kv.1 ++ '=' :: '"' :: escapeAttrib kv.2 ++ '"' :: serializeAttrs as)
        from rfl] at hcr
      injection hcr with h1 _
      rw [← h1]; decide
    | nil =>
      rw [show serializeAttrs [] = ([] : PyStr) from rfl, List.nil_append] at hcr
      split at hcr
      · simp only [List.cons_append] at hcr
        injection hcr with h1 _
        rw [← h1]; decide
      · simp only [List.cons_append, List.append_assoc] at hcr
        injection hcr with h1 _
        rw [← h1]; decide
  have htall : ∀ c ∈ t, isNameChar c = true := by
    have h3 := hw.1
    simp only [wfName, Bool.and_eq_true, List.all_eq_true, decide_eq_true_eq] at h3
    exact h3.2
  have htk := takeWhile_append_stop (p := isNameChar) t
    (serializeAttrs a ++
      ((if (tx.getD []).isEmpty && cs.isEmpty then ' ' :: '/' :: '>' :: ([] : PyStr)
        else '>' :: escapeCdata (tx.getD []) ++ serializeKids cs ++
             '<' :: '/' :: t ++ ['>']) ++ r)) htall hstop
  have hne : t.isEmpty = false := by
    have h4 := hw.1
    simp only [wfName, Bool.and_eq_true, decide_eq_true_eq] at h4
    simpa using h4.1
  rw [hse]
  simp only [List.cons_append, List.append_assoc]
  rw [parseElem]
  simp only [List.cons_append, List.append_assoc] at htk
  rw [htk.1, htk.2]
  simp only [hne, Bool.false_eq_true, if_false]
  by_cases hb : ((tx.getD []).isEmpty && cs.isEmpty) = true
  · rw [if_pos hb]
    have hcs : cs = [] := by
      have h5 := hb
      simp only [Bool.and_eq_true, List.isEmpty_iff] at h5
      exact h5.2
    have htxn : tx = none := by
      cases htxe : tx with
      | none => rfl
      | some v =>
        rw [htxe] at hb
        have hv := hw.2.2.1
        rw [htxe] at hv
        simp only [wfText, Bool.and_eq_true, decide_eq_true_eq] at hv
        simp only [Option.getD, Bool.and_eq_true, List.isEmpty_iff] at hb
        exact absurd (by simpa [List.isEmpty_iff] using hb.1) hv.1
    simp only [List.cons_append, List.nil_append]
    have hpa := parseAttrs_round a hw.2.1
      ((t ++ (serializeAttrs a ++ (' ' :: '/' :: '>' :: r))).length + 1) true r
      (by simp only [List.length_append]; omega)
    rw [if_pos rfl] at hpa
    rw [hpa]
    rw [hcs, htxn]
    rfl
  · rw [if_neg hb]
    simp only [List.cons_append, List.append_assoc, List.nil_append]
    have hpa := parseAttrs_round a hw.2.1
      ((t ++ (serializeAttrs a ++ ('>' :: (escapeCdata (tx.getD [])
        ++ (serializeKids cs ++ '<' :: '/' :: (t ++ '>' :: r)))))).length + 1) false
      (escapeCdata (tx.getD []) ++ (serializeKids cs ++ '<' :: '/' :: (t ++ '>' :: r)))
      (by simp only [List.length_append]; omega)
    rw [if_neg (by simp)] at hpa
    rw [hpa]
    have hlen : (serializeElem (XNode.mk t a tx cs tl)).length
        = t.length + (serializeAttrs a).length + (escapeCdata (tx.getD [])).length
          + (serializeKids cs).length + t.length + 5 := by
      rw [hse, if_neg hb]
      simp only [List.cons_append, List.append_assoc, List.length_append,
        List.length_cons, List.length_nil]
      omega
    have hct := hk F2 t tx r hw.2.2.2.2 hw.1 hw.2.2.1 (by rw [hlen] at hF; omega)
    simp only [List.cons_append, List.append_assoc] at hct
    show (match parseContent F2 t
        (escapeCdata (tx.getD []) ++ (serializeKids cs ++ '<' :: '/' :: (t ++ '>' :: r))) with
      | some (tx2, kids, r3) => some (XNode.mk t a tx2 kids none, r3)
      | none => none) = some ((XNode.mk t a tx cs tl).setTail none, r)
    rw [hct]
    rfl


/-- Every element satisfies the element round-trip property, by mutual
structural induction over the nested tree. -/
theorem roundElem_all (n : XNode) : RoundElem n :=
  @XNode.rec RoundElem RoundKids roundStep_mk roundStep_nil roundStep_cons n

/-- Clearing an absent tail is the identity. -/
theorem setTail_none_id (d : XNode) (h : d.tail = none) : d.setTail none = d := by
  obtain ⟨t0, a0, tx0, cs0, tl0, rfl⟩ :
      ∃ t0 a0 tx0 cs0 tl0, d = XNode.mk t0 a0 tx0 cs0 tl0 := by
    cases d; exact ⟨_, _, _, _, _, rfl⟩
  simp only [XNode.tail] at h
  rw [h]
  rfl

/-- C2 (amended): the writer normalizes the byte form, so the round-trip law
holds on the writer's image rather than on arbitrary well-formed input: for
every well-formed document, parsing its serialization recovers the document
exactly, and hence serializing again reproduces the same bytes. -/
theorem c2_amended (d : XNode) (h : wfDoc d = true) :
    parseDoc (serializeNode d) = some d
    ∧ (parseDoc (serializeNode d)).map serializeNode = some (serializeNode d) := by
  have hwn : wfNode d = true ∧ d.tail = none := by
    simp only [wfDoc, Bool.and_eq_true, Option.isNone_iff_eq_none] at h
    exact h
  have hsn : serializeNode d = serializeElem d := by
    rw [serializeNode, hwn.2]
    exact List.append_nil _
  obtain ⟨s, hsh⟩ : ∃ s, serializeElem d = '<' :: s := by
    cases d
    exact ⟨_, rfl⟩
  have hdw : (serializeElem d).dropWhile isXmlWs = serializeElem d := by
    rw [hsh, List.dropWhile_cons]
    simp [isXmlWs]
  have hre := roundElem_all d ((serializeElem d).length + 1) [] (by omega) hwn.1
  rw [List.append_nil] at hre
  have hp1 : parseDoc (serializeNode d) = some d := by
    rw [hsn, parseDoc, hdw, hre, setTail_none_id d hwn.2]
    rfl
  refine ⟨hp1, ?_⟩
  rw [hp1]
  rfl

/-- Witness for the amended round-trip on a document with attributes,
escaped text, children and tails. -/
theorem c2_amended_witness :
    wfDoc rtWitnessDoc = true
    ∧ (parseDoc (serializeNode rtWitnessDoc) = some rtWitnessDoc
      ∧ (parseDoc (serializeNode rtWitnessDoc)).map serializeNode
        = some (serializeNode rtWitnessDoc)) :=
  ⟨by decide, c2_amended rtWitnessDoc (by decide)⟩

end OpnWG
